import Mathlib

/-!
Sliding-window rate limiter.

A shallow embedding of `limiter.go`, `sync_window.go` and `synchronizer.go`.

* `int64` values are integers; every Go operation that can overflow is followed by `wrap64`
  (two's complement), `Time.Sub` saturates as in the Go library.
* A `time.Time` is the number of nanoseconds since the Unix epoch (an integer); the monotonic
  clock reading is not modelled.
* `float64` values are the dyadic rationals `mant * 2 ^ exp`; division and multiplication round
  to nearest, ties to even, with a 53 bit significand.
* `Window` values are pointers into a heap of `SyncWindow` records, so that the two fields
  `currWindow` and `prevWindow` of a `Limiter` may name the same record.
* The worker goroutine of `FastSynchronizer` is outside the calling thread: what it offers at the
  moment of a call is the `SyncEnv` argument.
-/

set_option maxRecDepth 100000

namespace RateLimit

/-! ## 64 bit integers -/

/-- Smallest `int64`. -/
def minInt64 : Int := -9223372036854775808

/-- Largest `int64`. -/
def maxInt64 : Int := 9223372036854775807

/-- The value is representable as an `int64`. -/
def inInt64 (x : Int) : Prop := minInt64 ≤ x ∧ x ≤ maxInt64

instance (x : Int) : Decidable (inInt64 x) := by
  unfold inInt64
  infer_instance

/-- Two's complement wrap-around of an integer result to `int64`. -/
def wrap64 (x : Int) : Int :=
  (x + 9223372036854775808) % 18446744073709551616 - 9223372036854775808

/-- Saturation to the `int64` range (`minDuration`, `maxDuration` of package `time`). -/
def sat64 (x : Int) : Int :=
  if x < minInt64 then minInt64 else if maxInt64 < x then maxInt64 else x

/-- Go's `a / b` on `int64`: the quotient truncates toward zero and wraps
(`MinInt64 / -1`); `none` is the run-time panic "integer divide by zero". -/
def div64 (a b : Int) : Option Int :=
  if b = 0 then none else some (wrap64 (Int.tdiv a b))

/-! ## Package `time` -/

/-- Nanoseconds from January 1, year 1 (the zero `time.Time`) to the Unix epoch. -/
def unixToInternalNs : Int := 62135596800 * 1000000000

/-- `t.Sub(u)`: the duration `t - u`, saturated to the range of `time.Duration`. -/
def Time.Sub (t u : Int) : Int := sat64 (t - u)

/-- `t.Add(d)`. -/
def Time.Add (t d : Int) : Int := t + d

/-- `t.Truncate(d)`: `t` rounded down to a multiple of `d` since the zero time;
`t` itself when `d <= 0`. -/
def Time.Truncate (t d : Int) : Int :=
  if d ≤ 0 then t else t - (t + unixToInternalNs) % d

/-- `t.UnixNano()`: the nanoseconds since the Unix epoch as an `int64`. -/
def Time.UnixNano (t : Int) : Int := wrap64 t

/-- `time.Unix(0, nsec)`. -/
def Time.Unix0 (nsec : Int) : Int := nsec

/-- `d.Milliseconds()`: `int64(d) / 1e6`. -/
def Duration.Milliseconds (d : Int) : Int := Int.tdiv d 1000000

/-! ## `float64` -/

/-- A finite `float64`, the number `mant * 2 ^ exp`. -/
structure F64 where
  mant : Int
  exp : Int
deriving DecidableEq, Repr

/-- Number of binary digits of `n`, counted with `fuel` steps. -/
def bitLenAux : Nat → Nat → Nat
  | 0, _ => 0
  | fuel + 1, n => if n = 0 then 0 else bitLenAux fuel (n / 2) + 1

/-- Number of binary digits of `n` (for `n < 2 ^ 4096`, which covers every quotient and product
of finite doubles). -/
def bitLen (n : Nat) : Nat := bitLenAux 4096 n

/-- The double nearest to `p / q` for positive `p`, `q`: the significand is `p / q` scaled into
`[2 ^ 52, 2 ^ 53)` and rounded to an integer, ties to even. The operands met in `AllowN` have
magnitudes between `2 ^ (-64)` and `2 ^ 127`, where no double is subnormal or infinite. -/
def F64.roundPos (p q : Nat) : F64 :=
  let l : Int := (bitLen p : Int) - (bitLen q : Int)
  let ge : Bool :=
    if 0 ≤ l then decide (q * 2 ^ l.toNat ≤ p) else decide (q ≤ p * 2 ^ (-l).toNat)
  let e : Int := (if ge then l else l - 1) - 52
  let P : Nat := if 0 ≤ e then p else p * 2 ^ (-e).toNat
  let Q : Nat := if 0 ≤ e then q * 2 ^ e.toNat else q
  let m0 := P / Q
  let r := P % Q
  let m := if Q < 2 * r ∨ (2 * r = Q ∧ m0 % 2 = 1) then m0 + 1 else m0
  ⟨(m : Int), e⟩

/-- The double nearest to the fraction `p / q`. A zero `q` is not met: `AllowN` has already
panicked on a zero interval when it reaches the division. -/
def F64.roundFrac (p q : Int) : F64 :=
  if p = 0 ∨ q = 0 then ⟨0, 0⟩
  else
    let r := F64.roundPos p.natAbs q.natAbs
    if (decide (p < 0)) = (decide (q < 0)) then r else ⟨-r.mant, r.exp⟩

/-- Numerator of the value of a double over the denominator `F64.den`. -/
def F64.num (x : F64) : Int := if 0 ≤ x.exp then x.mant * 2 ^ x.exp.toNat else x.mant

/-- Denominator of the value of a double, a power of two. -/
def F64.den (x : F64) : Int := if 0 ≤ x.exp then 1 else 2 ^ (-x.exp).toNat

/-- The conversion `float64(x)` of an `int64`. -/
def F64.ofInt (x : Int) : F64 := F64.roundFrac x 1

/-- The quotient `a / b` of doubles. -/
def F64.div (a b : F64) : F64 := F64.roundFrac (a.num * b.den) (a.den * b.num)

/-- The product `a * b` of doubles. -/
def F64.mul (a b : F64) : F64 := F64.roundFrac (a.num * b.num) (a.den * b.den)

/-- The integer `math.Floor(a)`. -/
def F64.floor (a : F64) : Int := a.num / a.den

/-- The conversion `int64(f)` of an integral double `f`. Go leaves the result for a value
outside `int64` to the implementation; amd64 yields `MinInt64`. -/
def f64ToInt64 (f : Int) : Int := if inInt64 f then f else minInt64

/-! ## `sync_window.go` -/

/-- The snapshot of a window sent to the store side. -/
structure SyncRequest where
  Key : String
  Start : Int
  Count : Int
  Delta : Int
deriving DecidableEq, Repr

/-- The outcome of one reconciliation round. -/
structure SyncResponse where
  Success : Bool
  Start : Int
  LocalDelta : Int
  CounterpartDelta : Int
deriving DecidableEq, Repr

/-- The fields of `syncHelper` read and written by the calling thread (the `store` field is
used by the worker only). -/
structure syncHelper where
  running : Bool
  syncInterval : Int
  lastSynced : Int
deriving DecidableEq, Repr

/-- A `FastSynchronizer`; its three channels connect it to the worker goroutine. -/
structure FastSynchronizer where
  helper : syncHelper
deriving DecidableEq, Repr

/-- A `SyncWindow`; `sync = none` is the nil `Synchronizer` interface value. -/
structure SyncWindow where
  key : String
  startTime : Int
  count : Int
  delta : Int
  lastTime : Int
  sync : Option FastSynchronizer
deriving DecidableEq, Repr

/-- What the world outside the calling thread offers during one call of `AllowN`. -/
structure SyncEnv where
  -- the reading `time.Now().UnixNano()` taken inside `AddCount`
  clock : Int
  -- the worker is waiting to receive on `reqChan`, so that a send proceeds
  workerReady : Bool
  -- the response the worker is waiting to send on `respChan`, if any
  response : Option SyncResponse
deriving DecidableEq, Repr

/-- `NewSyncWindow(key)`; `unixSec` is the reading `time.Now().Unix()`. -/
def NewSyncWindow (key : String) (unixSec : Int) : SyncWindow :=
  { key := key, startTime := unixSec, count := 0, delta := 0, lastTime := 0, sync := none }

/-- `newSyncHelper(store, syncIntervalInMs)`; `clock` is the reading `time.Now()`. -/
def newSyncHelper (syncIntervalInMs clock : Int) : syncHelper :=
  { running := false, syncInterval := syncIntervalInMs, lastSynced := clock }

/-- `newFastSynchronizer(store, syncIntervalInMs)`. -/
def newFastSynchronizer (syncIntervalInMs clock : Int) : FastSynchronizer :=
  { helper := newSyncHelper syncIntervalInMs clock }

/-- `s.WithSynchronizer(store, syncIntervalInMs)`. -/
def SyncWindow.WithSynchronizer (s : SyncWindow) (syncIntervalInMs clock : Int) : SyncWindow :=
  { s with sync := some (newFastSynchronizer syncIntervalInMs clock) }

/-- `s.StartTime()`. -/
def SyncWindow.StartTime (s : SyncWindow) : Int := Time.Unix0 s.startTime

/-- `s.LastTime()`. -/
def SyncWindow.LastTime (s : SyncWindow) : Int := Time.Unix0 s.lastTime

/-- `s.Count()`. -/
def SyncWindow.Count (s : SyncWindow) : Int := s.count

/-- `s.AddCount(n)`; `clock` is the reading `time.Now().UnixNano()`. -/
def SyncWindow.AddCount (s : SyncWindow) (n clock : Int) : SyncWindow :=
  { s with delta := wrap64 (s.delta + n), count := wrap64 (s.count + n), lastTime := clock }

/-- `s.Reset(t, c)`. -/
def SyncWindow.Reset (s : SyncWindow) (t c : Int) : SyncWindow :=
  { s with startTime := Time.UnixNano t, count := c }

/-- `s.handleSyncResponse(res)`. -/
def SyncWindow.handleSyncResponse (s : SyncWindow) (res : SyncResponse) : SyncWindow :=
  if res.Success = true ∧ res.Start = s.startTime then
    { s with count := wrap64 (s.count + res.CounterpartDelta),
             delta := wrap64 (s.delta - res.LocalDelta) }
  else s

/-- `s.getSyncRequest()`. -/
def SyncWindow.getSyncRequest (s : SyncWindow) : SyncRequest :=
  { Key := s.key, Start := s.startTime, Count := s.count, Delta := s.delta }

/-! ## `synchronizer.go` -/

/-- `s.couldSync(now)`. -/
def syncHelper.couldSync (s : syncHelper) (now : Int) : Bool :=
  !s.running && decide (s.syncInterval ≤ Time.Sub now s.lastSynced)

/-- `s.start(now)`. -/
def syncHelper.start (s : syncHelper) (now : Int) : syncHelper :=
  { s with running := true, lastSynced := now }

/-- `s.stop()`. -/
def syncHelper.stop (s : syncHelper) : syncHelper :=
  { s with running := false }

/-- The effect of one `FastSynchronizer.Sync` call: the synchronizer afterwards, the request
handed to the worker and the response passed to the handler. -/
structure SyncStep where
  sync : FastSynchronizer
  sent : Option SyncRequest
  handled : Option SyncResponse
deriving DecidableEq, Repr

/-- `f.Sync(now, getRequest, handler)`: `request` is the value of `getRequest()`, the response
in `handled` is the argument `handler` is called with. -/
def FastSynchronizer.Sync (f : FastSynchronizer) (now : Int) (request : SyncRequest)
    (env : SyncEnv) : SyncStep :=
  let handoff : Bool := f.helper.couldSync now && env.workerReady
  let h1 : syncHelper := if handoff then f.helper.start now else f.helper
  let sent : Option SyncRequest := if handoff then some request else none
  if h1.running then
    match env.response with
    | some resp => { sync := { helper := h1.stop }, sent := sent, handled := some resp }
    | none => { sync := { helper := h1 }, sent := sent, handled := none }
  else { sync := { helper := h1 }, sent := sent, handled := none }

/-- `s.Sync(now)`; `none` is the panic of the method call on a nil `Synchronizer`. -/
def SyncWindow.Sync (s : SyncWindow) (now : Int) (env : SyncEnv) : Option SyncWindow :=
  match s.sync with
  | none => none
  | some f =>
    let r := f.Sync now s.getSyncRequest env
    let s1 := match r.handled with
      | some resp => s.handleSyncResponse resp
      | none => s
    some { s1 with sync := some r.sync }

/-! ## `limiter.go` -/

/-- The heap of `SyncWindow` records; a `Window` interface value is an address in it. -/
abbrev Heap := Nat → SyncWindow

/-- Assignment to the record at address `p`. -/
def Heap.set (h : Heap) (p : Nat) (w : SyncWindow) : Heap :=
  fun q => if q = p then w else h q

/-- A `Limiter` (without its mutex: calls are taken one at a time). -/
structure Limiter where
  statIntervalInMs : Int
  threshold : Int
  limitEvenly : Bool
  maxQueueTimeout : Int
  currWindow : Nat
  prevWindow : Nat
deriving DecidableEq, Repr

/-- `NewLimiter(statIntervalInMs, threshold, currWindow)`: both window fields receive the same
interface value. -/
def NewLimiter (statIntervalInMs threshold : Int) (currWindow : Nat) : Limiter :=
  { statIntervalInMs := statIntervalInMs, threshold := threshold, limitEvenly := false,
    maxQueueTimeout := 0, currWindow := currWindow, prevWindow := currWindow }

/-- `lim.WithLimitEvenly(limitEvenly)`. -/
def Limiter.WithLimitEvenly (lim : Limiter) (limitEvenly : Bool) : Limiter :=
  { lim with limitEvenly := limitEvenly }

/-- The run-time panics of `AllowN`. -/
inductive Panic where
  | divideByZero
  | nilDereference
deriving DecidableEq, Repr

deriving instance DecidableEq for Except

/-- What a returning `AllowN` call leaves behind: its result, the heap, and the arguments of
the `currWindow.Sync` calls it made. -/
structure Outcome where
  allowed : Bool
  heap : Heap
  synced : List Int

/-- The condition of the pacing gate (`limiter.go` line 53): `true` when the call is rejected
by it. The division is evaluated only when `limitEvenly` is set. -/
def Limiter.pacingGate (lim : Limiter) (h : Heap) (now : Int) : Except Panic Bool :=
  if lim.limitEvenly then
    match div64 (Duration.Milliseconds lim.statIntervalInMs) lim.threshold with
    | none => .error .divideByZero
    | some q =>
      .ok (decide (Duration.Milliseconds (Time.Sub now (h lim.currWindow).LastTime) < q))
  else .ok false

/-- The value of `timeSpan` (`limiter.go` lines 57-58). -/
def Limiter.timeSpan (lim : Limiter) (h : Heap) (now : Int) : Option Int :=
  div64 (Time.Sub (Time.Truncate now lim.statIntervalInMs) (h lim.currWindow).StartTime)
    lim.statIntervalInMs

/-- The rotation step (`limiter.go` lines 57-67). -/
def Limiter.rotate (lim : Limiter) (h : Heap) (now : Int) : Except Panic Heap :=
  let newCurrentStart := Time.Truncate now lim.statIntervalInMs
  match lim.timeSpan h now with
  | none => .error .divideByZero
  | some timeSpan =>
    if 1 ≤ timeSpan then
      let newPrevCount := if timeSpan = 1 then (h lim.currWindow).Count else 0
      let h1 := h.set lim.prevWindow
        ((h lim.prevWindow).Reset (Time.Add newCurrentStart (wrap64 (-lim.statIntervalInMs)))
          newPrevCount)
      .ok (h1.set lim.currWindow ((h1 lim.currWindow).Reset newCurrentStart 0))
    else .ok h

/-- The value of `elapsed` (`limiter.go` line 69). -/
def Limiter.elapsed (lim : Limiter) (h : Heap) (now : Int) : Int :=
  Time.Sub now (h lim.currWindow).StartTime

/-- The value of `weight` (`limiter.go` line 71). -/
def Limiter.weight (lim : Limiter) (h : Heap) (now : Int) : F64 :=
  F64.div (F64.ofInt (wrap64 (lim.statIntervalInMs - lim.elapsed h now)))
    (F64.ofInt lim.statIntervalInMs)

/-- The integer `math.Floor(weight*float64(prevWindow.Count()))` (`limiter.go` line 72). -/
def Limiter.weightedFloor (lim : Limiter) (h : Heap) (now : Int) : Int :=
  F64.floor (F64.mul (lim.weight h now) (F64.ofInt (h lim.prevWindow).Count))

/-- The term `int64(math.Floor(weight*float64(prevWindow.Count())))` (`limiter.go`
line 72). -/
def Limiter.weighted (lim : Limiter) (h : Heap) (now : Int) : Int :=
  f64ToInt64 (lim.weightedFloor h now)

/-- The value of the variable `count` (`limiter.go` line 72). -/
def Limiter.estimate (lim : Limiter) (h : Heap) (now : Int) : Int :=
  wrap64 (lim.weighted h now + (h lim.currWindow).Count)

/-- The decision (`limiter.go` line 76): `false` when `count+n > lim.threshold`. -/
def Limiter.admits (lim : Limiter) (h : Heap) (now n : Int) : Bool :=
  !decide (lim.threshold < wrap64 (lim.estimate h now + n))

/-- The heap after the decision (`limiter.go` lines 76-81): `AddCount(n)` on the current
window when the call is admitted. -/
def Limiter.decided (lim : Limiter) (h : Heap) (now n clock : Int) : Heap :=
  if lim.admits h now n = true then
    h.set lim.currWindow ((h lim.currWindow).AddCount n clock)
  else h

/-- `lim.AllowN(now, n)`. The deferred `currWindow.Sync(now)` is registered after the pacing
gate has been passed and runs after the decision. -/
def Limiter.AllowN (lim : Limiter) (h : Heap) (now n : Int) (env : SyncEnv) :
    Except Panic Outcome :=
  match lim.pacingGate h now with
  | .error e => .error e
  | .ok true => .ok { allowed := false, heap := h, synced := [] }
  | .ok false =>
    match lim.rotate h now with
    | .error e => .error e
    | .ok h1 =>
      let h2 : Heap := lim.decided h1 now n env.clock
      match (h2 lim.currWindow).Sync now env with
      | none => .error .nilDereference
      | some w =>
        .ok { allowed := lim.admits h1 now n, heap := h2.set lim.currWindow w, synced := [now] }

/-- `lim.Allow()`; `clock` is the reading `time.Now()`. -/
def Limiter.Allow (lim : Limiter) (h : Heap) (clock : Int) (env : SyncEnv) :
    Except Panic Outcome :=
  lim.AllowN h clock 1 env

/-- One `AllowN` call of a sequence. -/
structure Call where
  now : Int
  n : Int
  env : SyncEnv
deriving DecidableEq, Repr

/-- A sequence of `AllowN` calls taken one after the other (the callers serialise on the
mutex): the results in call order and the final heap. -/
def Limiter.run (lim : Limiter) (h : Heap) : List Call → Except Panic (List Bool × Heap)
  | [] => .ok ([], h)
  | c :: cs =>
    match lim.AllowN h c.now c.n c.env with
    | .error e => .error e
    | .ok o =>
      match Limiter.run lim o.heap cs with
      | .error e => .error e
      | .ok r => .ok (o.allowed :: r.1, r.2)

/-! ## `synchronizer.go`: the two steps of `Sync` and the worker's `sync` -/

/-- The first statement of `f.Sync` (`synchronizer.go` lines 53-59): the non-blocking send of
`getRequest()`, tried when `couldSync(now)` holds; the helper afterwards and the request handed
to the worker, if any. -/
def FastSynchronizer.handoff (f : FastSynchronizer) (now : Int) (request : SyncRequest)
    (env : SyncEnv) : syncHelper × Option SyncRequest :=
  if f.helper.couldSync now && env.workerReady then (f.helper.start now, some request)
  else (f.helper, none)

/-- The second statement of `f.Sync` (`synchronizer.go` lines 61-68): the non-blocking receive,
tried when `running` is set; the helper afterwards and the response passed to the handler, if
any. -/
def syncHelper.harvest (s : syncHelper) (env : SyncEnv) : syncHelper × Option SyncResponse :=
  if s.running then
    match env.response with
    | some resp => (s.stop, some resp)
    | none => (s, none)
  else (s, none)

/-- The errors a `DataStore` returns: `DataStoreKeyValueNotFoundError` or any other error. -/
inductive StoreError where
  | notFound
  | other (msg : String)
deriving DecidableEq, Repr

/-- A call of one of the two methods of the `DataStore` interface. -/
inductive StoreCall where
  | Add (key : String) (start value : Int)
  | Get (key : String) (start : Int)
deriving DecidableEq, Repr

/-- What a `DataStore` method returns: the `int64` and the `error` (`none` is `nil`). -/
abbrev StoreResult := Int × Option StoreError

/-- The store operation chosen by `syncHelper.sync` (`synchronizer.go` lines 102-106). -/
def syncHelper.storeCall (req : SyncRequest) : StoreCall :=
  if 0 < req.Delta then StoreCall.Add req.Key req.Start req.Delta
  else StoreCall.Get req.Key req.Start

/-- A `DataStore` implementation together with the state its methods work on: a method
returns its `(int64, error)` and the state it leaves the store in. -/
structure DataStore (σ : Type) where
  Add : σ → String → Int → Int → StoreResult × σ
  Get : σ → String → Int → StoreResult × σ

/-- What `syncHelper.sync` returns, with the store operations it performed. -/
structure SyncResult where
  resp : SyncResponse
  err : Option StoreError
  calls : List StoreCall
deriving DecidableEq, Repr

/-- The zero value `SyncResponse{}`. -/
def SyncResponse.zero : SyncResponse :=
  { Success := false, Start := 0, LocalDelta := 0, CounterpartDelta := 0 }

/-- `s.sync(req)` (`synchronizer.go` lines 97-121) on the store `store` in the state `st`: the
response and the error it returns, and the state in which it leaves the store. -/
def syncHelper.syncOn {σ : Type} (store : DataStore σ) (st : σ) (req : SyncRequest) :
    (SyncResponse × Option StoreError) × σ :=
  let r : StoreResult × σ :=
    if 0 < req.Delta then store.Add st req.Key req.Start req.Delta
    else store.Get st req.Key req.Start
  match r.1.2 with
  | some StoreError.notFound => ((SyncResponse.zero, none), r.2)
  | some e => ((SyncResponse.zero, some e), r.2)
  | none =>
    (({ Success := true, Start := req.Start, LocalDelta := req.Delta,
        CounterpartDelta := wrap64 (r.1.1 - req.Delta) }, none), r.2)

/-- The store that returns `answer call` to a call and whose state is the list of the calls
made to it, in order. -/
def recordingStore (answer : StoreCall → StoreResult) : DataStore (List StoreCall) :=
  { Add := fun log key start value =>
      (answer (StoreCall.Add key start value), log ++ [StoreCall.Add key start value]),
    Get := fun log key start =>
      (answer (StoreCall.Get key start), log ++ [StoreCall.Get key start]) }

/-- `s.sync(req)` on a store that returns `store call` to a call: what it returns, and the
calls the store received, as the store recorded them. -/
def syncHelper.sync (store : StoreCall → StoreResult) (req : SyncRequest) : SyncResult :=
  let r := syncHelper.syncOn (recordingStore store) [] req
  { resp := r.1.1, err := r.1.2, calls := r.2 }

/-! ## `data_store.go` -/

/-- The verb `%d` of package `fmt` for an integer: its decimal digits, after a minus sign when
it is negative. -/
def formatInt (start : Int) : String :=
  match start with
  | Int.ofNat m => Nat.repr m
  | Int.negSucc m => "-" ++ Nat.repr (m + 1)

/-- `formatKey(key, start)`, that is `fmt.Sprintf("%s_%d", key, start)`. -/
def formatKey (key : String) (start : Int) : String :=
  key ++ "_" ++ formatInt start

/-- An `Item` of the library `github.com/patrickmn/go-cache`: the stored object (this store
only stores `int64` values) and its expiration in Unix nanoseconds, 0 for none. -/
structure Item where
  Object : Int
  Expiration : Int
deriving DecidableEq, Repr

/-- The state behind an initialised `cache.Cache` of go-cache. -/
structure Cache where
  defaultExpiration : Int
  items : String → Option Item

/-- `item.Expired()` of go-cache at the clock reading `now`. -/
def Item.Expired (i : Item) (now : Int) : Bool :=
  decide (0 < i.Expiration) && decide (i.Expiration < now)

/-- `c.Get(k)` of go-cache: the object of an item that is present and has not expired. -/
def Cache.Get (c : Cache) (k : String) (now : Int) : Option Int :=
  match c.items k with
  | none => none
  | some i => if i.Expired now then none else some i.Object

/-- `c.set(k, x, d)` of go-cache: a duration `0` stands for the default expiration, a positive
duration expires at `now + d`, a negative one never. -/
def Cache.set (c : Cache) (k : String) (x d now : Int) : Cache :=
  let d1 := if d = 0 then c.defaultExpiration else d
  let e := if 0 < d1 then wrap64 (now + d1) else 0
  { c with items := fun q => if q = k then some { Object := x, Expiration := e } else c.items q }

/-- `c.Add(k, x, d)` of go-cache: stores the item only if none is present unexpired (the error
it returns otherwise is dropped by the caller). The lookup reads the clock at `atGet`, the
`set` at `atSet`. -/
def Cache.Add (c : Cache) (k : String) (x d atGet atSet : Int) : Cache :=
  match c.Get k atGet with
  | some _ => c
  | none => c.set k x d atSet

/-- `c.IncrementInt64(k, n)` of go-cache: adds `n` to the item and returns the new value;
`none` is the error "Item k not found" for an absent or expired item. -/
def Cache.IncrementInt64 (c : Cache) (k : String) (n now : Int) : Option Int × Cache :=
  match c.items k with
  | none => (none, c)
  | some i =>
    if i.Expired now then (none, c)
    else
      (some (wrap64 (i.Object + n)),
        { c with items := fun q =>
            if q = k then some { i with Object := wrap64 (i.Object + n) } else c.items q })

/-- A `MemoryDataStore`. Its field `cache` is a `cache.Cache` value, a struct around a pointer:
`none` is the nil pointer of the zero value `cache.Cache{}`. -/
structure MemoryDataStore where
  cache : Option Cache
  expireTTL : Int

/-- `NewMemoryDataStore(expireTTL)`: the cache is the literal `cache.Cache{}`. -/
def NewMemoryDataStore (expireTTL : Int) : MemoryDataStore :=
  { cache := none, expireTTL := expireTTL }

/-- The readings of `time.Now().UnixNano()` taken during one `m.Add`: by the lookup inside
`cache.Add`, by its `set`, and by `IncrementInt64`. -/
structure AddClock where
  atGet : Int
  atSet : Int
  atIncrement : Int
deriving DecidableEq, Repr

/-- `m.Add(key, start, value)` with the clock readings `clock`; the error is the panic of a
method call through the nil pointer. -/
def MemoryDataStore.Add (m : MemoryDataStore) (key : String) (start value : Int)
    (clock : AddClock) : Except Panic (StoreResult × MemoryDataStore) :=
  match m.cache with
  | none => .error .nilDereference
  | some c =>
    let fullKey := formatKey key start
    let c1 := c.Add fullKey value m.expireTTL clock.atGet clock.atSet
    match c1.IncrementInt64 fullKey value clock.atIncrement with
    | (none, c2) => .ok ((0, some StoreError.notFound), { m with cache := some c2 })
    | (some result, c2) => .ok ((result, none), { m with cache := some c2 })

/-- `m.Get(key, start)` at the clock reading `now`. -/
def MemoryDataStore.Get (m : MemoryDataStore) (key : String) (start now : Int) :
    Except Panic (StoreResult × MemoryDataStore) :=
  match m.cache with
  | none => .error .nilDereference
  | some c =>
    match c.Get (formatKey key start) now with
    | none => .ok ((0, some StoreError.notFound), m)
    | some result => .ok ((result, none), m)

/-- No `int64` operation of the estimate and of the decision of a call wraps around, and the
floored product is representable as an `int64`. -/
def Limiter.noOverflow (lim : Limiter) (h : Heap) (now n : Int) : Prop :=
  inInt64 (lim.statIntervalInMs - lim.elapsed h now) ∧
  inInt64 (lim.weightedFloor h now) ∧
  inInt64 (lim.weighted h now + (h lim.currWindow).Count) ∧
  inInt64 (lim.estimate h now + n)

instance (lim : Limiter) (h : Heap) (now n : Int) : Decidable (lim.noOverflow h now n) := by
  unfold Limiter.noOverflow
  infer_instance

/-- The calls of a sequence ask for non-negative amounts, none of them rotates the current
window, panics or has a reconciliation response applied, and no call overflows. -/
def Limiter.steady (lim : Limiter) : Heap → List Call → Bool
  | _, [] => true
  | h, c :: cs =>
    decide (0 ≤ c.n) && c.env.response.isNone &&
    (match lim.timeSpan h c.now with
      | some k => decide (k < 1)
      | none => false) &&
    decide (lim.noOverflow h c.now c.n) &&
    (match lim.AllowN h c.now c.n c.env with
      | .ok o => Limiter.steady lim o.heap cs
      | .error _ => false)

/-- The sum of the amounts `n` of the calls that returned `true`. -/
def admittedSum : List Call → List Bool → Int
  | c :: cs, b :: bs => (if b = true then c.n else 0) + admittedSum cs bs
  | _, _ => 0

/-- The `CounterpartDelta` of the response that is ready during a call, 0 when none is. -/
def SyncEnv.counterpartDelta (env : SyncEnv) : Int :=
  match env.response with
  | some r => r.CounterpartDelta
  | none => 0

/-- The calls of a sequence return, ask for non-negative amounts, meet only responses with a
non-negative `CounterpartDelta`, and the current count, the amount and that delta together stay
within `int64`. -/
def Limiter.benign (lim : Limiter) : Heap → List Call → Bool
  | _, [] => true
  | h, c :: cs =>
    decide (0 ≤ c.n) && decide (0 ≤ c.env.counterpartDelta) &&
    decide ((h lim.currWindow).Count + c.n + c.env.counterpartDelta ≤ maxInt64) &&
    (match lim.AllowN h c.now c.n c.env with
      | .ok o => Limiter.benign lim o.heap cs
      | .error _ => false)

/-! ## Concrete states used by the examples -/

/-- A window of bucket `start` holding `count` admissions, with a synchronizer attached. -/
def exampleWindow (start count : Int) : SyncWindow :=
  { key := "k", startTime := start, count := count, delta := count, lastTime := 0,
    sync := some (newFastSynchronizer 200000000 0) }

/-- A response for bucket `start` acknowledging `localDelta` and reporting `counterpartDelta`
admissions of other instances. -/
def exampleResponse (start localDelta counterpartDelta : Int) : SyncResponse :=
  { Success := true, Start := start, LocalDelta := localDelta,
    CounterpartDelta := counterpartDelta }

/-- A limiter from `NewLimiter` with a one second interval and the given threshold; its
window is the record at address 0. -/
def exampleLimiter (threshold : Int) : Limiter := NewLimiter 1000000000 threshold 0

/-- A heap whose records are all `w`. -/
def exampleHeap (w : SyncWindow) : Heap := fun _ => w

/-- An environment in which no exchange with the worker takes place. -/
def exampleEnv (clock : Int) : SyncEnv :=
  { clock := clock, workerReady := false, response := none }

/-- A bucket boundary of one second intervals (2023-11-14 22:13:20 UTC). -/
def bucket : Int := 1700000000000000000

/-- A window of bucket `start` holding `count` admissions, the last one at `lastTime`. -/
def pacedWindow (start count lastTime : Int) : SyncWindow :=
  { key := "k", startTime := start, count := count, delta := count, lastTime := lastTime,
    sync := some (newFastSynchronizer 200000000 0) }

/-- A new window with a synchronizer: `NewSyncWindow("k").WithSynchronizer(store, 200ms)` on a
clock reading `bucket`. -/
def freshWindow : SyncWindow :=
  (NewSyncWindow "k" 1700000000).WithSynchronizer 200000000 bucket

/-- Eleven `Allow()` calls one millisecond apart, the first at `start`. -/
def elevenCalls (start : Int) : List Call :=
  (List.range 11).map fun i =>
    { now := start + 1000000 * (i : Int), n := 1, env := exampleEnv (start + 1000000 * (i : Int)) }

/-- The booleans returned by a sequence of calls, `none` when one of them panicked. -/
def Limiter.results (lim : Limiter) (h : Heap) (cs : List Call) : Option (List Bool) :=
  match lim.run h cs with
  | .ok r => some r.1
  | .error _ => none

/-- The arguments of the `Sync` calls made by a call, `none` when it panicked. -/
def syncedBy (r : Except Panic Outcome) : Option (List Int) :=
  match r with
  | .ok o => some o.synced
  | .error _ => none

/-- The boolean returned by a call, `none` when it panicked. -/
def returned (r : Except Panic Outcome) : Option Bool :=
  match r with
  | .ok o => some o.allowed
  | .error _ => none

/-- A store that answers every call with the value `v` and the error `err`. -/
def exampleStore (v : Int) (err : Option StoreError) : StoreCall → StoreResult :=
  fun _ => (v, err)

/-- A request for bucket 1000 of key `k` with the pending delta `delta`. -/
def exampleRequest (delta : Int) : SyncRequest :=
  { Key := "k", Start := 1000, Count := 3, Delta := delta }

/-- An environment in which the worker accepts a request and has no response ready. -/
def readyEnv (clock : Int) : SyncEnv :=
  { clock := clock, workerReady := true, response := none }

/-- A synchronizer with a 200 ms interval that last synchronised at `lastSynced`. -/
def exampleSynchronizer (running : Bool) (lastSynced : Int) : FastSynchronizer :=
  { helper := { running := running, syncInterval := 200000000, lastSynced := lastSynced } }

/-- An environment in which the worker accepts a request and offers `response`. -/
def workerEnv (response : Option SyncResponse) : SyncEnv :=
  { clock := 0, workerReady := true, response := response }

/-- An initialised go-cache without items. -/
def emptyCache : Cache :=
  { defaultExpiration := 0, items := fun _ => none }

/-- A `MemoryDataStore` whose cache has been initialised (as `cache.New` does) and is empty. -/
def memoryStore (expireTTL : Int) : MemoryDataStore :=
  { cache := some emptyCache, expireTTL := expireTTL }

/-- Three clock readings one microsecond apart, the first at `t`. -/
def addClock (t : Int) : AddClock :=
  { atGet := t, atSet := t + 1000, atIncrement := t + 2000 }

/-- What a store method returned, `none` when it panicked. -/
def storeAnswer (r : Except Panic (StoreResult × MemoryDataStore)) : Option StoreResult :=
  match r with
  | .ok x => some x.1
  | .error _ => none

/-- The store a store method left behind (the argument `m` when it panicked). -/
def storeAfter (m : MemoryDataStore) (r : Except Panic (StoreResult × MemoryDataStore)) :
    MemoryDataStore :=
  match r with
  | .ok x => x.2
  | .error _ => m

/-- The heap a sequence of calls leaves behind (the heap `h` when a call panicked). -/
def Limiter.heapAfter (lim : Limiter) (h : Heap) (cs : List Call) : Heap :=
  match lim.run h cs with
  | .ok r => r.2
  | .error _ => h

/-- The call `AllowN(time.Unix(2, 999999999), 1)`. -/
def earlyCall : Call :=
  { now := 2999999999, n := 1, env := exampleEnv 2999999999 }

/-! ## Arithmetic lemmas -/

theorem wrap64_of_inInt64 (x : Int) (h : inInt64 x) : wrap64 x = x := by
  unfold inInt64 minInt64 maxInt64 at h
  unfold wrap64
  omega

theorem wrap64_inInt64 (x : Int) : inInt64 (wrap64 x) := by
  unfold inInt64 minInt64 maxInt64 wrap64
  omega

/-! ## The window -/

/-- Counterexample of C8: a window counting 9223372036854775807 in bucket 1000 receives a
successful response for bucket 1000 with `counterpartDelta = 1`. The count becomes
-9223372036854775808: it has not risen by 1, the `int64` sum has wrapped around. -/
theorem handleSyncResponse_matching_counterexample :
    (exampleResponse 1000 0 1).Success = true ∧
    (exampleResponse 1000 0 1).Start = (exampleWindow 1000 9223372036854775807).startTime ∧
    ((exampleWindow 1000 9223372036854775807).handleSyncResponse
      (exampleResponse 1000 0 1)).count = -9223372036854775808 ∧
    ((exampleWindow 1000 9223372036854775807).handleSyncResponse
      (exampleResponse 1000 0 1)).count ≠
        (exampleWindow 1000 9223372036854775807).count +
          (exampleResponse 1000 0 1).CounterpartDelta := by
  decide

/-- C8, amended: a successful response for the window's own bucket sets `count` to the `int64`
sum `count + CounterpartDelta` and `delta` to the `int64` difference `delta - LocalDelta`: the
count rises by exactly `CounterpartDelta` whenever that sum is representable as an `int64`, the
delta falls by exactly `LocalDelta` whenever that difference is, and otherwise they wrap
around; `key`, `startTime`, `lastTime` and the synchronizer stay as they were. -/
theorem handleSyncResponse_matching (s : SyncWindow) (res : SyncResponse)
    (hs : res.Success = true) (hm : res.Start = s.startTime) :
    (s.handleSyncResponse res).count = wrap64 (s.count + res.CounterpartDelta) ∧
    (s.handleSyncResponse res).delta = wrap64 (s.delta - res.LocalDelta) ∧
    (inInt64 (s.count + res.CounterpartDelta) →
      (s.handleSyncResponse res).count = s.count + res.CounterpartDelta) ∧
    (inInt64 (s.delta - res.LocalDelta) →
      (s.handleSyncResponse res).delta = s.delta - res.LocalDelta) ∧
    (s.handleSyncResponse res).key = s.key ∧
    (s.handleSyncResponse res).startTime = s.startTime ∧
    (s.handleSyncResponse res).lastTime = s.lastTime ∧
    (s.handleSyncResponse res).sync = s.sync := by
  have hc : (s.handleSyncResponse res) =
      { s with count := wrap64 (s.count + res.CounterpartDelta),
               delta := wrap64 (s.delta - res.LocalDelta) } := by
    unfold SyncWindow.handleSyncResponse
    rw [if_pos ⟨hs, hm⟩]
  rw [hc]
  refine ⟨rfl, rfl, ?_, ?_, rfl, rfl, rfl, rfl⟩
  · intro h
    exact wrap64_of_inInt64 _ h
  · intro h
    exact wrap64_of_inInt64 _ h

/-- Witness of C8, amended: `counterpartDelta = 4` raises a count of 3 to 7 and the
acknowledged `localDelta = 3` clears a pending delta of 3. -/
theorem handleSyncResponse_matching_witness :
    ((exampleWindow 1000 3).handleSyncResponse (exampleResponse 1000 3 4)).count = 3 + 4 ∧
    ((exampleWindow 1000 3).handleSyncResponse (exampleResponse 1000 3 4)).delta = 3 - 3 :=
  have h := handleSyncResponse_matching (exampleWindow 1000 3) (exampleResponse 1000 3 4)
    rfl rfl
  ⟨h.2.2.1 (by decide), h.2.2.2.1 (by decide)⟩

/-- C9: a response that is unsuccessful, or whose start is not the window's current
`startTime`, leaves the whole window unchanged. -/
theorem handleSyncResponse_stale (s : SyncWindow) (res : SyncResponse)
    (h : res.Start ≠ s.startTime ∨ res.Success = false) :
    s.handleSyncResponse res = s := by
  unfold SyncWindow.handleSyncResponse
  rw [if_neg]
  rintro ⟨hs, hm⟩
  rcases h with h | h
  · exact h hm
  · rw [hs] at h
    exact Bool.noConfusion h

/-- Witness of C9: a response for bucket 1000 reaching a window that has rotated to bucket
2000 is dropped. -/
theorem handleSyncResponse_stale_witness :
    (exampleWindow 2000 3).handleSyncResponse (exampleResponse 1000 3 4) = exampleWindow 2000 3 :=
  handleSyncResponse_stale (exampleWindow 2000 3) (exampleResponse 1000 3 4)
    (Or.inl (by decide))

/-- Counterexample of C10: the response with `counterpartDelta = 4` applied once to a window
counting 3 gives 7, applied twice it gives 11. -/
theorem handleSyncResponse_twice_counterexample :
    ((exampleWindow 1000 3).handleSyncResponse (exampleResponse 1000 3 4)).count = 7 ∧
    (((exampleWindow 1000 3).handleSyncResponse (exampleResponse 1000 3 4)).handleSyncResponse
      (exampleResponse 1000 3 4)).count = 11 ∧
    ((exampleWindow 1000 3).handleSyncResponse (exampleResponse 1000 3 4)).handleSyncResponse
      (exampleResponse 1000 3 4) ≠
    (exampleWindow 1000 3).handleSyncResponse (exampleResponse 1000 3 4) := by
  decide

/-- C10, amended: for a response with `int64` deltas, applying it twice gives the same window
as applying it once exactly when the response does not apply (it is unsuccessful or its start
is not the window's `startTime`) or both of its deltas are zero; a response that applies is
added in again by the second application. -/
theorem handleSyncResponse_twice (s : SyncWindow) (res : SyncResponse)
    (hl : inInt64 res.LocalDelta) (hc : inInt64 res.CounterpartDelta) :
    ((s.handleSyncResponse res).handleSyncResponse res = s.handleSyncResponse res ↔
      (¬ (res.Success = true ∧ res.Start = s.startTime) ∨
        (res.CounterpartDelta = 0 ∧ res.LocalDelta = 0))) ∧
    (res.Success = true ∧ res.Start = s.startTime →
      ((s.handleSyncResponse res).handleSyncResponse res).count =
        wrap64 (s.count + 2 * res.CounterpartDelta) ∧
      ((s.handleSyncResponse res).handleSyncResponse res).delta =
        wrap64 (s.delta - 2 * res.LocalDelta)) := by
  unfold inInt64 minInt64 maxInt64 at hl hc
  by_cases hm : res.Success = true ∧ res.Start = s.startTime
  · have h1 : s.handleSyncResponse res =
        { s with count := wrap64 (s.count + res.CounterpartDelta),
                 delta := wrap64 (s.delta - res.LocalDelta) } := by
      unfold SyncWindow.handleSyncResponse
      rw [if_pos hm]
    have h2 : (s.handleSyncResponse res).handleSyncResponse res =
        { s with count := wrap64 (wrap64 (s.count + res.CounterpartDelta) + res.CounterpartDelta),
                 delta := wrap64 (wrap64 (s.delta - res.LocalDelta) - res.LocalDelta) } := by
      rw [h1]
      unfold SyncWindow.handleSyncResponse
      rw [if_pos hm]
    rw [h2, h1]
    refine ⟨⟨?_, ?_⟩, ?_⟩
    · intro he
      right
      have e1 := congrArg SyncWindow.count he
      have e2 := congrArg SyncWindow.delta he
      simp only [wrap64] at e1 e2
      constructor <;> omega
    · rintro (h | ⟨h3, h4⟩)
      · exact absurd hm h
      · have e1 : wrap64 (wrap64 (s.count + res.CounterpartDelta) + res.CounterpartDelta) =
            wrap64 (s.count + res.CounterpartDelta) := by
          simp only [wrap64]
          omega
        have e2 : wrap64 (wrap64 (s.delta - res.LocalDelta) - res.LocalDelta) =
            wrap64 (s.delta - res.LocalDelta) := by
          simp only [wrap64]
          omega
        rw [e1, e2]
    · intro _
      constructor
      · simp only [wrap64]
        omega
      · simp only [wrap64]
        omega
  · have h1 : s.handleSyncResponse res = s := by
      unfold SyncWindow.handleSyncResponse
      rw [if_neg hm]
    rw [h1, h1]
    exact ⟨⟨fun _ => Or.inl hm, fun _ => rfl⟩, fun h => absurd h hm⟩

/-- Witness of C10, amended: a response with both deltas zero changes nothing on its second
application. -/
theorem handleSyncResponse_twice_witness :
    ((exampleWindow 1000 3).handleSyncResponse (exampleResponse 1000 0 0)).handleSyncResponse
      (exampleResponse 1000 0 0) =
    (exampleWindow 1000 3).handleSyncResponse (exampleResponse 1000 0 0) :=
  (handleSyncResponse_twice (exampleWindow 1000 3) (exampleResponse 1000 0 0)
    (by decide) (by decide)).1.2 (Or.inr ⟨rfl, rfl⟩)

/-! ## The limiter -/

theorem Heap.set_same (h : Heap) (p : Nat) (w : SyncWindow) : (h.set p w) p = w := by
  simp [Heap.set]

theorem Heap.set_other (h : Heap) (p q : Nat) (w : SyncWindow) (hne : q ≠ p) :
    (h.set p w) q = h q := by
  simp [Heap.set, hne]

theorem timeSpan_isSome (lim : Limiter) (h : Heap) (now : Int)
    (hI : lim.statIntervalInMs ≠ 0) : ∃ k, lim.timeSpan h now = some k := by
  unfold Limiter.timeSpan div64
  rw [if_neg hI]
  exact ⟨_, rfl⟩

theorem rotate_isOk (lim : Limiter) (h : Heap) (now : Int)
    (hI : lim.statIntervalInMs ≠ 0) : ∃ h1, lim.rotate h now = .ok h1 := by
  obtain ⟨k, hk⟩ := timeSpan_isSome lim h now hI
  unfold Limiter.rotate
  simp only [hk]
  split
  · exact ⟨_, rfl⟩
  · exact ⟨_, rfl⟩

/-- The rotation changes `startTime` and `count` only. -/
theorem rotate_frame (lim : Limiter) (h h1 : Heap) (now : Int)
    (hrot : lim.rotate h now = .ok h1) (p : Nat) :
    ∃ t c, h1 p = { h p with startTime := t, count := c } := by
  unfold Limiter.rotate at hrot
  cases hk : lim.timeSpan h now with
  | none => simp [hk] at hrot
  | some k =>
    simp only [hk] at hrot
    split at hrot
    · injection hrot with hrot
      subst hrot
      by_cases hc : p = lim.currWindow
      · subst hc
        rw [Heap.set_same]
        by_cases hp : lim.currWindow = lim.prevWindow
        · rw [hp, Heap.set_same]
          exact ⟨_, _, rfl⟩
        · rw [Heap.set_other _ _ _ _ hp]
          exact ⟨_, _, rfl⟩
      · rw [Heap.set_other _ _ _ _ hc]
        by_cases hp : p = lim.prevWindow
        · subst hp
          rw [Heap.set_same]
          exact ⟨_, _, rfl⟩
        · rw [Heap.set_other _ _ _ _ hp]
          exact ⟨_, _, rfl⟩
    · injection hrot with hrot
      subst hrot
      exact ⟨_, _, rfl⟩

theorem rotate_sync (lim : Limiter) (h h1 : Heap) (now : Int)
    (hrot : lim.rotate h now = .ok h1) (p : Nat) : (h1 p).sync = (h p).sync := by
  obtain ⟨t, c, e⟩ := rotate_frame lim h h1 now hrot p
  rw [e]

theorem rotate_lastTime (lim : Limiter) (h h1 : Heap) (now : Int)
    (hrot : lim.rotate h now = .ok h1) (p : Nat) : (h1 p).lastTime = (h p).lastTime := by
  obtain ⟨t, c, e⟩ := rotate_frame lim h h1 now hrot p
  rw [e]

/-- The handler changes `count` and `delta` only. -/
theorem handleSyncResponse_frame (s : SyncWindow) (res : SyncResponse) :
    (s.handleSyncResponse res).lastTime = s.lastTime ∧
    (s.handleSyncResponse res).startTime = s.startTime := by
  unfold SyncWindow.handleSyncResponse
  split
  · exact ⟨rfl, rfl⟩
  · exact ⟨rfl, rfl⟩

/-- A `Sync` call leaves `lastTime` and `startTime` as they are, and `count` too when no
response is ready. -/
theorem Sync_frame (s w : SyncWindow) (now : Int) (env : SyncEnv)
    (hw : s.Sync now env = some w) :
    w.lastTime = s.lastTime ∧ w.startTime = s.startTime ∧
    (env.response = none → w.count = s.count) := by
  unfold SyncWindow.Sync at hw
  cases hf : s.sync with
  | none => simp [hf] at hw
  | some f =>
    simp only [hf] at hw
    injection hw with hw
    subst hw
    cases hh : (f.Sync now s.getSyncRequest env).handled with
    | none => exact ⟨rfl, rfl, fun _ => rfl⟩
    | some resp =>
      refine ⟨(handleSyncResponse_frame s resp).1, (handleSyncResponse_frame s resp).2, ?_⟩
      intro hnone
      exfalso
      have hn : (f.Sync now s.getSyncRequest env).handled = none := by
        unfold FastSynchronizer.Sync
        rw [hnone]
        dsimp only
        split <;> split <;> rfl
      rw [hn] at hh
      exact Option.noConfusion hh

theorem decided_lastTime (lim : Limiter) (h : Heap) (now n clock : Int) :
    ((lim.decided h now n clock) lim.currWindow).lastTime =
      if lim.admits h now n = true then clock else (h lim.currWindow).lastTime := by
  unfold Limiter.decided
  split
  · rw [Heap.set_same]
    rfl
  · rfl

theorem Sync_isSome (s : SyncWindow) (now : Int) (env : SyncEnv) (hs : s.sync ≠ none) :
    ∃ w, s.Sync now env = some w := by
  unfold SyncWindow.Sync
  cases hf : s.sync with
  | none => exact absurd hf hs
  | some f => exact ⟨_, rfl⟩

theorem decided_sync (lim : Limiter) (h : Heap) (now n clock : Int) (p : Nat) :
    ((lim.decided h now n clock) p).sync = (h p).sync := by
  unfold Limiter.decided
  split
  · by_cases hp : p = lim.currWindow
    · subst hp
      rw [Heap.set_same]
      rfl
    · rw [Heap.set_other _ _ _ _ hp]
  · rfl

/-- The shape of a call that has passed the pacing gate and the rotation. -/
theorem AllowN_passed (lim : Limiter) (h h1 : Heap) (now n : Int) (env : SyncEnv)
    (hgate : lim.pacingGate h now = .ok false) (hrot : lim.rotate h now = .ok h1)
    (hsync : (h lim.currWindow).sync ≠ none) :
    ∃ w, ((lim.decided h1 now n env.clock) lim.currWindow).Sync now env = some w ∧
      lim.AllowN h now n env = .ok
        { allowed := lim.admits h1 now n,
          heap := (lim.decided h1 now n env.clock).set lim.currWindow w,
          synced := [now] } := by
  have hs2 : ((lim.decided h1 now n env.clock) lim.currWindow).sync ≠ none := by
    rw [decided_sync, rotate_sync lim h h1 now hrot]
    exact hsync
  obtain ⟨w, hw⟩ := Sync_isSome _ now env hs2
  refine ⟨w, hw, ?_⟩
  unfold Limiter.AllowN
  simp only [hgate, hrot]
  rw [hw]

/-- The two ways in which a call returns. -/
theorem AllowN_cases (lim : Limiter) (h : Heap) (now n : Int) (env : SyncEnv) (o : Outcome)
    (hok : lim.AllowN h now n env = .ok o) :
    (lim.pacingGate h now = .ok true ∧ o.allowed = false ∧ o.heap = h) ∨
    (lim.pacingGate h now = .ok false ∧ ∃ h1 w, lim.rotate h now = .ok h1 ∧
      ((lim.decided h1 now n env.clock) lim.currWindow).Sync now env = some w ∧
      o.allowed = lim.admits h1 now n ∧
      o.heap = (lim.decided h1 now n env.clock).set lim.currWindow w) := by
  unfold Limiter.AllowN at hok
  cases hg : lim.pacingGate h now with
  | error e => simp [hg] at hok
  | ok g =>
    cases g with
    | true =>
      simp only [hg] at hok
      injection hok with hok
      subst hok
      exact Or.inl ⟨rfl, rfl, rfl⟩
    | false =>
      simp only [hg] at hok
      cases hr : lim.rotate h now with
      | error e => simp [hr] at hok
      | ok h1 =>
        simp only [hr] at hok
        cases hw : ((lim.decided h1 now n env.clock) lim.currWindow).Sync now env with
        | none => simp [hw] at hok
        | some w =>
          simp only [hw] at hok
          injection hok with hok
          subst hok
          exact Or.inr ⟨rfl, h1, w, rfl, hw, rfl, rfl⟩

/-- C1, amended: when the pacing gate is off or passed, the interval is not zero and the
current window has a synchronizer, `AllowN` rotates, returns, and returns `true` exactly when
the `int64` sum `estimate + n` is at most `threshold`, where `estimate` is the code's `count`
(the `float64` product floored, plus the current count, in `int64`); whenever `estimate + n`
does not overflow this is the comparison `estimate + n ≤ threshold` of integers. -/
theorem AllowN_decision (lim : Limiter) (h : Heap) (now n : Int) (env : SyncEnv)
    (hgate : lim.pacingGate h now = .ok false) (hI : lim.statIntervalInMs ≠ 0)
    (hsync : (h lim.currWindow).sync ≠ none) :
    ∃ h1 o, lim.rotate h now = .ok h1 ∧ lim.AllowN h now n env = .ok o ∧
      lim.estimate h1 now =
        wrap64 (f64ToInt64 (F64.floor (F64.mul
            (F64.div (F64.ofInt (wrap64 (lim.statIntervalInMs -
              Time.Sub now (h1 lim.currWindow).StartTime))) (F64.ofInt lim.statIntervalInMs))
            (F64.ofInt (h1 lim.prevWindow).Count))) +
          (h1 lim.currWindow).Count) ∧
      (o.allowed = true ↔ wrap64 (lim.estimate h1 now + n) ≤ lim.threshold) ∧
      (inInt64 (lim.estimate h1 now + n) →
        (o.allowed = true ↔ lim.estimate h1 now + n ≤ lim.threshold)) := by
  obtain ⟨h1, hrot⟩ := rotate_isOk lim h now hI
  obtain ⟨w, _, hA⟩ := AllowN_passed lim h h1 now n env hgate hrot hsync
  have hiff : lim.admits h1 now n = true ↔ wrap64 (lim.estimate h1 now + n) ≤ lim.threshold := by
    unfold Limiter.admits
    simp
  refine ⟨h1, _, hrot, hA, rfl, hiff, ?_⟩
  intro hr
  rw [← wrap64_of_inInt64 _ hr]
  exact hiff

/-- Witness of C1, amended: a limiter of threshold 10 whose window counts 1, asked for one
more unit late in the bucket. -/
theorem AllowN_decision_witness :
    ∃ h1 o, (exampleLimiter 10).rotate (exampleHeap (exampleWindow bucket 1))
        (bucket + 950000000) = .ok h1 ∧
      (exampleLimiter 10).AllowN (exampleHeap (exampleWindow bucket 1)) (bucket + 950000000) 1
        (exampleEnv (bucket + 950000000)) = .ok o ∧
      (exampleLimiter 10).estimate h1 (bucket + 950000000) =
        wrap64 (f64ToInt64 (F64.floor (F64.mul
            (F64.div (F64.ofInt (wrap64 ((exampleLimiter 10).statIntervalInMs -
              Time.Sub (bucket + 950000000) (h1 (exampleLimiter 10).currWindow).StartTime)))
              (F64.ofInt (exampleLimiter 10).statIntervalInMs))
            (F64.ofInt (h1 (exampleLimiter 10).prevWindow).Count))) +
          (h1 (exampleLimiter 10).currWindow).Count) ∧
      (o.allowed = true ↔
        wrap64 ((exampleLimiter 10).estimate h1 (bucket + 950000000) + 1) ≤
          (exampleLimiter 10).threshold) ∧
      (inInt64 ((exampleLimiter 10).estimate h1 (bucket + 950000000) + 1) →
        (o.allowed = true ↔
          (exampleLimiter 10).estimate h1 (bucket + 950000000) + 1 ≤
            (exampleLimiter 10).threshold)) :=
  AllowN_decision (exampleLimiter 10) (exampleHeap (exampleWindow bucket 1))
    (bucket + 950000000) 1 (exampleEnv (bucket + 950000000)) (by decide) (by decide) (by decide)

/-- Counterexample of C1: with threshold 10, a window counting 1 and no rotation, the estimate
is 1 and `AllowN(now, 9223372036854775807)` returns `true` although `estimate + n` is `2 ^ 63`:
the `int64` sum `count+n` wraps around to a negative number. -/
theorem AllowN_decision_counterexample :
    (exampleLimiter 10).pacingGate (exampleHeap (exampleWindow bucket 1))
      (bucket + 950000000) = .ok false ∧
    (exampleLimiter 10).rotate (exampleHeap (exampleWindow bucket 1)) (bucket + 950000000) =
      .ok (exampleHeap (exampleWindow bucket 1)) ∧
    (exampleLimiter 10).estimate (exampleHeap (exampleWindow bucket 1))
      (bucket + 950000000) = 1 ∧
    returned ((exampleLimiter 10).AllowN (exampleHeap (exampleWindow bucket 1))
      (bucket + 950000000) 9223372036854775807 (exampleEnv (bucket + 950000000))) = some true ∧
    ¬ ((exampleLimiter 10).estimate (exampleHeap (exampleWindow bucket 1))
        (bucket + 950000000) + 9223372036854775807 ≤ (exampleLimiter 10).threshold) := by
  refine ⟨by decide, rfl, by decide, by decide, by decide⟩

/-- C2, at the failing input: a limiter from `NewLimiter` with a one second interval and
threshold 10 on a new window, pacing off, no response applied. Of eleven `Allow()` calls at
the start of one bucket only six return `true`; the scenario's ten admissions are reached
only late in the bucket, here from 950 ms on. -/
theorem scenarioA_early_calls :
    (exampleLimiter 10).results (exampleHeap freshWindow) (elevenCalls bucket) =
      some [true, true, true, true, true, true, false, false, false, false, false] ∧
    (exampleLimiter 10).results (exampleHeap freshWindow) (elevenCalls (bucket + 950000000)) =
      some [true, true, true, true, true, true, true, true, true, true, false] := by
  constructor <;> decide

/-- C4, what the code does: in a limiter from `NewLimiter` the two window fields are the same
record, so whenever `AllowN` rotates (one interval later or more) both `prevWindow.Count()`
and `currWindow.Count()` are 0 after the rotation, whatever the count was before. -/
theorem rotate_NewLimiter_count (I T : Int) (p : Nat) (h h1 : Heap) (now k : Int)
    (hk : (NewLimiter I T p).timeSpan h now = some k) (h1k : 1 ≤ k)
    (hrot : (NewLimiter I T p).rotate h now = .ok h1) :
    (h1 (NewLimiter I T p).prevWindow).Count = 0 ∧
    (h1 (NewLimiter I T p).currWindow).Count = 0 := by
  unfold Limiter.rotate at hrot
  simp only [hk, if_pos h1k] at hrot
  injection hrot with hrot
  subst hrot
  have hp : (NewLimiter I T p).prevWindow = (NewLimiter I T p).currWindow := rfl
  rw [hp, Heap.set_same]
  exact ⟨rfl, rfl⟩

/-- Witness of C4: the window counts 3 in bucket `bucket`; the call one interval later rotates
with `timeSpan = 1` and leaves `prevWindow.Count() = 0`, not 3. -/
theorem rotate_NewLimiter_count_witness :
    ((exampleHeap (exampleWindow bucket 3)) (exampleLimiter 10).currWindow).Count = 3 ∧
    (exampleLimiter 10).timeSpan (exampleHeap (exampleWindow bucket 3))
      (bucket + 1000000000) = some 1 ∧
    (∃ h1, (exampleLimiter 10).rotate (exampleHeap (exampleWindow bucket 3))
        (bucket + 1000000000) = .ok h1) ∧
    ∀ h1, (exampleLimiter 10).rotate (exampleHeap (exampleWindow bucket 3))
        (bucket + 1000000000) = .ok h1 →
      (h1 (exampleLimiter 10).prevWindow).Count = 0 ∧
      (h1 (exampleLimiter 10).currWindow).Count = 0 :=
  ⟨by decide, by decide, rotate_isOk _ _ _ (by decide), fun h1 hrot =>
    rotate_NewLimiter_count 1000000000 10 0 (exampleHeap (exampleWindow bucket 3)) h1
      (bucket + 1000000000) 1 (by decide) (by decide) hrot⟩

/-- Counterexample of C6: with pacing on, interval one second and threshold 10, a call 50 ms
after the last admission is rejected by the pacing gate and makes no `Sync` call: a `Sync` call
would have handed a request to the waiting worker and changed the window's synchronizer, but
the call leaves the window as it was. -/
theorem AllowN_synced_counterexample :
    ((exampleLimiter 10).WithLimitEvenly true).pacingGate
      (exampleHeap (pacedWindow bucket 1 bucket)) (bucket + 50000000) = .ok true ∧
    returned (((exampleLimiter 10).WithLimitEvenly true).AllowN
      (exampleHeap (pacedWindow bucket 1 bucket)) (bucket + 50000000) 1
      (exampleEnv (bucket + 50000000))) = some false ∧
    syncedBy (((exampleLimiter 10).WithLimitEvenly true).AllowN
      (exampleHeap (pacedWindow bucket 1 bucket)) (bucket + 50000000) 1
      (exampleEnv (bucket + 50000000))) = some [] ∧
    (pacedWindow bucket 1 bucket).Sync (bucket + 50000000) (readyEnv (bucket + 50000000)) =
      some { pacedWindow bucket 1 bucket with
        sync := some { helper := { running := true, syncInterval := 200000000,
                                   lastSynced := bucket + 50000000 } } } ∧
    returned (((exampleLimiter 10).WithLimitEvenly true).AllowN
      (exampleHeap (pacedWindow bucket 1 bucket)) (bucket + 50000000) 1
      (readyEnv (bucket + 50000000))) = some false ∧
    (((exampleLimiter 10).WithLimitEvenly true).heapAfter
      (exampleHeap (pacedWindow bucket 1 bucket))
      [{ now := bucket + 50000000, n := 1, env := readyEnv (bucket + 50000000) }])
        ((exampleLimiter 10).WithLimitEvenly true).currWindow = pacedWindow bucket 1 bucket := by
  refine ⟨by decide, by decide, by decide, by decide, by decide, by decide⟩

/-- C6, amended: a returning `AllowN` call that has passed the pacing gate (or has pacing off)
runs `currWindow.Sync(now)` exactly once, after the decision, whether it accepts or rejects:
the current window it leaves is the result of one `Sync(now)` on the current window as the
decision left it. A call rejected by the pacing gate returns `false` before the deferred call
is registered, runs no `Sync` and leaves the heap as it was. -/
theorem AllowN_synced (lim : Limiter) (h : Heap) (now n : Int) (env : SyncEnv) (o : Outcome)
    (hok : lim.AllowN h now n env = .ok o) :
    (lim.pacingGate h now = .ok false ∧ o.synced = [now] ∧
      ∃ h1 w, lim.rotate h now = .ok h1 ∧
        ((lim.decided h1 now n env.clock) lim.currWindow).Sync now env = some w ∧
        o.allowed = lim.admits h1 now n ∧
        o.heap = (lim.decided h1 now n env.clock).set lim.currWindow w) ∨
    (lim.pacingGate h now = .ok true ∧ o.synced = [] ∧ o.allowed = false ∧ o.heap = h) := by
  unfold Limiter.AllowN at hok
  cases hg : lim.pacingGate h now with
  | error e => simp [hg] at hok
  | ok g =>
    cases g with
    | true =>
      simp only [hg] at hok
      injection hok with hok
      subst hok
      exact Or.inr ⟨rfl, rfl, rfl, rfl⟩
    | false =>
      simp only [hg] at hok
      cases hr : lim.rotate h now with
      | error e => simp [hr] at hok
      | ok h1 =>
        simp only [hr] at hok
        cases hw : ((lim.decided h1 now n env.clock) lim.currWindow).Sync now env with
        | none => simp [hw] at hok
        | some w =>
          simp only [hw] at hok
          injection hok with hok
          subst hok
          exact Or.inl ⟨rfl, rfl, h1, w, rfl, hw, rfl, rfl⟩

/-- Witness of C6, amended: an accepted call with the worker waiting. Its one `Sync` call hands
the request off, so the window's synchronizer, idle before, is running afterwards with
`lastSynced = now`. -/
theorem AllowN_synced_witness :
    ((exampleHeap (exampleWindow bucket 1)) (exampleLimiter 10).currWindow).sync =
      some { helper := { running := false, syncInterval := 200000000, lastSynced := 0 } } ∧
    ∃ o, (exampleLimiter 10).AllowN (exampleHeap (exampleWindow bucket 1))
        (bucket + 950000000) 1 (readyEnv (bucket + 950000000)) = .ok o ∧
      (o.heap (exampleLimiter 10).currWindow).sync =
        some { helper := { running := true, syncInterval := 200000000,
                           lastSynced := bucket + 950000000 } } ∧
      (((exampleLimiter 10).pacingGate (exampleHeap (exampleWindow bucket 1))
          (bucket + 950000000) = .ok false ∧ o.synced = [bucket + 950000000] ∧
          ∃ h1 w, (exampleLimiter 10).rotate (exampleHeap (exampleWindow bucket 1))
              (bucket + 950000000) = .ok h1 ∧
            (((exampleLimiter 10).decided h1 (bucket + 950000000) 1
              (readyEnv (bucket + 950000000)).clock) (exampleLimiter 10).currWindow).Sync
                (bucket + 950000000) (readyEnv (bucket + 950000000)) = some w ∧
            o.allowed = (exampleLimiter 10).admits h1 (bucket + 950000000) 1 ∧
            o.heap = ((exampleLimiter 10).decided h1 (bucket + 950000000) 1
              (readyEnv (bucket + 950000000)).clock).set (exampleLimiter 10).currWindow w) ∨
        ((exampleLimiter 10).pacingGate (exampleHeap (exampleWindow bucket 1))
          (bucket + 950000000) = .ok true ∧ o.synced = [] ∧ o.allowed = false ∧
          o.heap = exampleHeap (exampleWindow bucket 1))) :=
  ⟨by decide, _, rfl, by decide,
    AllowN_synced (exampleLimiter 10) (exampleHeap (exampleWindow bucket 1))
      (bucket + 950000000) 1 (readyEnv (bucket + 950000000)) _ rfl⟩

/-- C7, what the code does: `AllowN` panics (1) with a nil dereference in the deferred
`Sync` for every limiter from `NewLimiter` with a non-zero interval whose window is a
`NewSyncWindow` without `WithSynchronizer`, (2) with a division by zero for a zero
`statIntervalInMs`, and (3) with a division by zero for a zero threshold with pacing on. -/
theorem AllowN_panics :
    (∀ (I T : Int) (key : String) (sec now n : Int) (env : SyncEnv), I ≠ 0 →
      (NewLimiter I T 0).AllowN (exampleHeap (NewSyncWindow key sec)) now n env =
        .error .nilDereference) ∧
    (∀ (T : Int) (w : SyncWindow) (now n : Int) (env : SyncEnv),
      (NewLimiter 0 T 0).AllowN (exampleHeap w) now n env = .error .divideByZero) ∧
    (∀ (I : Int) (w : SyncWindow) (now n : Int) (env : SyncEnv),
      ((NewLimiter I 0 0).WithLimitEvenly true).AllowN (exampleHeap w) now n env =
        .error .divideByZero) := by
  refine ⟨?_, ?_, ?_⟩
  · intro I T key sec now n env hI
    obtain ⟨h1, hrot⟩ := rotate_isOk (NewLimiter I T 0) (exampleHeap (NewSyncWindow key sec))
      now hI
    have hs := rotate_sync _ _ _ _ hrot (NewLimiter I T 0).currWindow
    unfold Limiter.AllowN
    have hg : (NewLimiter I T 0).pacingGate (exampleHeap (NewSyncWindow key sec)) now =
        .ok false := rfl
    simp only [hg, hrot]
    have hn : ((Limiter.decided (NewLimiter I T 0) h1 now n env.clock)
        (NewLimiter I T 0).currWindow).Sync now env = none := by
      unfold SyncWindow.Sync
      rw [decided_sync, hs]
      rfl
    rw [hn]
  · intro T w now n env
    rfl
  · intro I w now n env
    rfl

/-- Witness of C7: `NewLimiter(time.Second, 10, NewSyncWindow("k"))` panics on its first
`AllowN(now, 1)`. -/
theorem AllowN_panics_witness :
    (NewLimiter 1000000000 10 0).AllowN (exampleHeap (NewSyncWindow "k" 1700000000))
      bucket 1 (exampleEnv bucket) = .error .nilDereference :=
  AllowN_panics.1 1000000000 10 "k" 1700000000 bucket 1 (exampleEnv bucket) (by decide)

/-- After a call the last-hit time of the current window is the clock reading of the call if
it was admitted, and is unchanged if it was rejected. -/
theorem AllowN_lastTime (lim : Limiter) (h : Heap) (now n : Int) (env : SyncEnv) (o : Outcome)
    (hok : lim.AllowN h now n env = .ok o) :
    (o.heap lim.currWindow).lastTime =
      if o.allowed = true then env.clock else (h lim.currWindow).lastTime := by
  rcases AllowN_cases lim h now n env o hok with ⟨_, ha, hh⟩ | ⟨_, h1, w, hrot, hw, ha, hh⟩
  · rw [ha, hh]
    simp
  · rw [hh, Heap.set_same, (Sync_frame _ w now env hw).1, decided_lastTime, ha,
      rotate_lastTime lim h h1 now hrot]

/-- An admitted call has passed the pacing gate. -/
theorem AllowN_gate_passed (lim : Limiter) (h : Heap) (now n : Int) (env : SyncEnv)
    (o : Outcome) (hok : lim.AllowN h now n env = .ok o) (ha : o.allowed = true) :
    lim.pacingGate h now = .ok false := by
  rcases AllowN_cases lim h now n env o hok with ⟨_, hf, _⟩ | ⟨hg, _⟩
  · rw [hf] at ha
    exact Bool.noConfusion ha
  · exact hg

theorem run_rejected_lastTime (lim : Limiter) (cs : List Call) :
    ∀ (h h2 : Heap) (rs : List Bool), lim.run h cs = .ok (rs, h2) →
      (∀ b ∈ rs, b = false) → (h2 lim.currWindow).lastTime = (h lim.currWindow).lastTime := by
  induction cs with
  | nil =>
    intro h h2 rs hrun _
    unfold Limiter.run at hrun
    injection hrun with hrun
    injection hrun with _ e2
    rw [e2]
  | cons c cs ih =>
    intro h h2 rs hrun hrej
    unfold Limiter.run at hrun
    cases ho : lim.AllowN h c.now c.n c.env with
    | error e => simp [ho] at hrun
    | ok o =>
      simp only [ho] at hrun
      cases hr : lim.run o.heap cs with
      | error e => simp [hr] at hrun
      | ok r =>
        simp only [hr] at hrun
        injection hrun with hrun
        injection hrun with e1 e2
        subst e1
        subst e2
        have hfalse : o.allowed = false := hrej o.allowed (List.mem_cons_self _ _)
        have hrest : ∀ b ∈ r.1, b = false := fun b hb => hrej b (List.mem_cons_of_mem _ hb)
        rw [ih o.heap r.2 r.1 hr hrest, AllowN_lastTime lim h c.now c.n c.env o ho, hfalse]
        simp

/-- Counterexample of C5: pacing on, interval 1000 ms, threshold 3. Two calls 333 ms apart
both return `true`, although 333 ms is less than the exact quotient 1000 ms / 3. -/
theorem pacing_counterexample :
    ((exampleLimiter 3).WithLimitEvenly true).results (exampleHeap freshWindow)
      [{ now := bucket, n := 1, env := exampleEnv bucket },
       { now := bucket + 333000000, n := 1, env := exampleEnv (bucket + 333000000) }] =
      some [true, true] ∧
    ((bucket + 333000000) - bucket) * 3 < ((exampleLimiter 3).WithLimitEvenly true).statIntervalInMs := by
  constructor <;> decide

/-- C5, amended: with `limitEvenly` set, let a call `c` be admitted, the calls after it be
rejected, and then a call `d` be admitted. Then `threshold` is not zero and the distance from
the clock reading `AddCount` took in `c` to the time `now` of `d`, in whole milliseconds, is at
least the integer quotient of the interval in whole milliseconds by the threshold. -/
theorem pacing_between_admissions (lim : Limiter) (h h2 : Heap) (c d : Call)
    (mid : List Call) (rm : List Bool) (o1 o2 : Outcome)
    (hE : lim.limitEvenly = true)
    (hc : lim.AllowN h c.now c.n c.env = .ok o1) (ha1 : o1.allowed = true)
    (hmid : lim.run o1.heap mid = .ok (rm, h2)) (hrej : ∀ b ∈ rm, b = false)
    (hd : lim.AllowN h2 d.now d.n d.env = .ok o2) (ha2 : o2.allowed = true) :
    ∃ q, div64 (Duration.Milliseconds lim.statIntervalInMs) lim.threshold = some q ∧
      q ≤ Duration.Milliseconds (Time.Sub d.now c.env.clock) := by
  have hl1 : (o1.heap lim.currWindow).lastTime = c.env.clock := by
    rw [AllowN_lastTime lim h c.now c.n c.env o1 hc, if_pos ha1]
  have hl2 : (h2 lim.currWindow).lastTime = c.env.clock := by
    rw [run_rejected_lastTime lim mid o1.heap h2 rm hmid hrej, hl1]
  have hg := AllowN_gate_passed lim h2 d.now d.n d.env o2 hd ha2
  unfold Limiter.pacingGate at hg
  rw [if_pos hE] at hg
  cases hq : div64 (Duration.Milliseconds lim.statIntervalInMs) lim.threshold with
  | none => simp [hq] at hg
  | some q =>
    simp only [hq] at hg
    injection hg with hg
    refine ⟨q, rfl, ?_⟩
    have hlt : ¬ Duration.Milliseconds (Time.Sub d.now (h2 lim.currWindow).LastTime) < q := by
      simpa using hg
    unfold SyncWindow.LastTime Time.Unix0 at hlt
    rw [hl2] at hlt
    exact not_lt.mp hlt

/-- Witness of C5, amended: interval 1000 ms, threshold 3; a call admitted at `bucket`, a call
100 ms later rejected by the gate, a call 334 ms later admitted: 334 is at least 1000 / 3. -/
theorem pacing_between_admissions_witness :
    ∃ q, div64 (Duration.Milliseconds ((exampleLimiter 3).WithLimitEvenly true).statIntervalInMs)
        ((exampleLimiter 3).WithLimitEvenly true).threshold = some q ∧
      q ≤ Duration.Milliseconds (Time.Sub (bucket + 334000000) (exampleEnv bucket).clock) :=
  pacing_between_admissions ((exampleLimiter 3).WithLimitEvenly true)
    (exampleHeap freshWindow) _
    { now := bucket, n := 1, env := exampleEnv bucket }
    { now := bucket + 334000000, n := 1, env := exampleEnv (bucket + 334000000) }
    [{ now := bucket + 100000000, n := 1, env := exampleEnv (bucket + 100000000) }]
    [false] _ _ rfl rfl rfl rfl (by decide) rfl rfl

/-! ## Admissions within one window -/

theorem roundPos_mant_nonneg (p q : Nat) : 0 ≤ (F64.roundPos p q).mant := by
  unfold F64.roundPos
  exact Int.ofNat_nonneg _

theorem roundFrac_mant_nonneg (p q : Int) (hp : 0 ≤ p) (hq : 0 ≤ q) :
    0 ≤ (F64.roundFrac p q).mant := by
  unfold F64.roundFrac
  split
  · exact le_refl _
  · have hd : decide (p < 0) = decide (q < 0) := by
      rw [decide_eq_false (not_lt.mpr hp), decide_eq_false (not_lt.mpr hq)]
    dsimp only
    rw [if_pos hd]
    exact roundPos_mant_nonneg _ _

theorem F64.num_nonneg (x : F64) (h : 0 ≤ x.mant) : 0 ≤ x.num := by
  unfold F64.num
  split
  · exact mul_nonneg h (pow_nonneg (by norm_num) _)
  · exact h

theorem F64.den_pos (x : F64) : 0 < x.den := by
  unfold F64.den
  split
  · norm_num
  · exact pow_pos (by norm_num) _

theorem F64.floor_nonneg (x : F64) (h : 0 ≤ x.mant) : 0 ≤ x.floor :=
  Int.ediv_nonneg (F64.num_nonneg x h) (F64.den_pos x).le

/-- The floored product is not negative when neither `statInterval - elapsed`, the interval
nor the previous count is. -/
theorem weightedFloor_nonneg (lim : Limiter) (h : Heap) (now : Int)
    (hI : 0 ≤ lim.statIntervalInMs)
    (ha : 0 ≤ wrap64 (lim.statIntervalInMs - lim.elapsed h now))
    (hp : 0 ≤ (h lim.prevWindow).Count) : 0 ≤ lim.weightedFloor h now := by
  unfold Limiter.weightedFloor
  apply F64.floor_nonneg
  unfold F64.mul
  apply roundFrac_mant_nonneg
  · apply mul_nonneg
    · apply F64.num_nonneg
      unfold Limiter.weight F64.div
      apply roundFrac_mant_nonneg
      · exact mul_nonneg (F64.num_nonneg _ (roundFrac_mant_nonneg _ 1 ha (by norm_num)))
          (F64.den_pos _).le
      · exact mul_nonneg (F64.den_pos _).le
          (F64.num_nonneg _ (roundFrac_mant_nonneg _ 1 hI (by norm_num)))
    · exact F64.num_nonneg _ (roundFrac_mant_nonneg _ 1 hp (by norm_num))
  · exact mul_nonneg (F64.den_pos _).le (F64.den_pos _).le

theorem sat64_lt (y I : Int) (hy : y < I) (hI0 : 0 < I) : sat64 y < I := by
  unfold sat64 minInt64 maxInt64
  split_ifs <;> omega

theorem lt_of_sat64_lt (y I : Int) (hy : sat64 y < I) (hI : I ≤ maxInt64) : y < I := by
  unfold sat64 minInt64 maxInt64 at hy
  unfold maxInt64 at hI
  split_ifs at hy <;> omega

theorem sat64_inInt64 (y : Int) : inInt64 (sat64 y) := by
  unfold inInt64 sat64 minInt64 maxInt64
  split_ifs <;> constructor <;> omega

/-- In a window whose start is a bucket boundary, a call that does not rotate has
`elapsed < statInterval`. -/
theorem elapsed_lt_of_not_rotating (lim : Limiter) (h : Heap) (now k : Int)
    (hI : 0 < lim.statIntervalInMs) (hImax : lim.statIntervalInMs ≤ maxInt64)
    (halign : Time.Truncate (h lim.currWindow).StartTime lim.statIntervalInMs =
      (h lim.currWindow).StartTime)
    (hk : lim.timeSpan h now = some k) (hk1 : k < 1) :
    lim.elapsed h now < lim.statIntervalInMs := by
  unfold Limiter.timeSpan div64 at hk
  rw [if_neg (ne_of_gt hI)] at hk
  injection hk with hk
  have hx : Time.Sub (Time.Truncate now lim.statIntervalInMs) (h lim.currWindow).StartTime <
      lim.statIntervalInMs := by
    by_contra hge
    push_neg at hge
    have hx0 := le_trans hI.le hge
    have hr := sat64_inInt64 (Time.Truncate now lim.statIntervalInMs -
      (h lim.currWindow).StartTime)
    rw [Int.tdiv_eq_ediv hx0 hI.le] at hk
    have h1 : 1 ≤ Time.Sub (Time.Truncate now lim.statIntervalInMs)
        (h lim.currWindow).StartTime / lim.statIntervalInMs :=
      Int.le_ediv_of_mul_le hI (by omega)
    have h2 := Int.ediv_le_self lim.statIntervalInMs hx0
    unfold Time.Sub at h1 h2 hk
    have h3 : inInt64 (sat64 (Time.Truncate now lim.statIntervalInMs -
        (h lim.currWindow).StartTime) / lim.statIntervalInMs) := by
      unfold inInt64 minInt64 maxInt64 at *
      constructor <;> omega
    rw [wrap64_of_inInt64 _ h3] at hk
    omega
  have hx2 := lt_of_sat64_lt _ _ hx hImax
  unfold Time.Truncate at hx2 halign
  rw [if_neg (not_le.mpr hI)] at hx2 halign
  have e1 := Int.emod_add_ediv (now + unixToInternalNs) lim.statIntervalInMs
  have e2 := Int.emod_add_ediv ((h lim.currWindow).StartTime + unixToInternalNs)
    lim.statIntervalInMs
  have r1 := Int.emod_lt_of_pos (now + unixToInternalNs) hI
  have hq : (now + unixToInternalNs) / lim.statIntervalInMs -
      ((h lim.currWindow).StartTime + unixToInternalNs) / lim.statIntervalInMs < 1 := by
    by_contra hge
    push_neg at hge
    have := mul_le_mul_of_nonneg_left hge hI.le
    rw [mul_sub, mul_one] at this
    omega
  have hq2 : lim.statIntervalInMs * ((now + unixToInternalNs) / lim.statIntervalInMs) ≤
      lim.statIntervalInMs *
        (((h lim.currWindow).StartTime + unixToInternalNs) / lim.statIntervalInMs) :=
    mul_le_mul_of_nonneg_left (by omega) hI.le
  unfold Limiter.elapsed Time.Sub
  apply sat64_lt _ _ _ hI
  omega

theorem rotate_of_not_rotating (lim : Limiter) (h h1 : Heap) (now k : Int)
    (hk : lim.timeSpan h now = some k) (hk1 : k < 1) (hrot : lim.rotate h now = .ok h1) :
    h1 = h := by
  unfold Limiter.rotate at hrot
  simp only [hk, if_neg (not_le.mpr hk1)] at hrot
  injection hrot with hrot
  exact hrot.symm

/-- One call of a steady sequence: the start of the current window stays, its count grows by
`n` if the call is admitted and stays otherwise, and an admission has `count + n ≤ threshold`
for the count before the call. -/
theorem AllowN_steady_step (lim : Limiter) (h : Heap) (c : Call) (o : Outcome) (k : Int)
    (hI : 0 < lim.statIntervalInMs) (hImax : lim.statIntervalInMs ≤ maxInt64)
    (halign : Time.Truncate (h lim.currWindow).StartTime lim.statIntervalInMs =
      (h lim.currWindow).StartTime)
    (hc0 : 0 ≤ (h lim.currWindow).Count) (hp0 : 0 ≤ (h lim.prevWindow).Count)
    (hn : 0 ≤ c.n) (hresp : c.env.response = none)
    (hk : lim.timeSpan h c.now = some k) (hk1 : k < 1)
    (hno : lim.noOverflow h c.now c.n)
    (hok : lim.AllowN h c.now c.n c.env = .ok o) :
    (o.heap lim.currWindow).StartTime = (h lim.currWindow).StartTime ∧
    (o.heap lim.currWindow).Count =
      (h lim.currWindow).Count + (if o.allowed = true then c.n else 0) ∧
    0 ≤ (o.heap lim.prevWindow).Count ∧
    (o.allowed = true → (h lim.currWindow).Count + c.n ≤ lim.threshold) := by
  rcases AllowN_cases lim h c.now c.n c.env o hok with
    ⟨_, ha, hh⟩ | ⟨_, h1, w, hrot, hw, ha, hh⟩
  · rw [ha, hh]
    simp [hp0]
  · have e1 := rotate_of_not_rotating lim h h1 c.now k hk hk1 hrot
    subst e1
    obtain ⟨hno1, hno2, hno3, hno4⟩ := hno
    have hel := elapsed_lt_of_not_rotating lim h1 c.now k hI hImax halign hk hk1
    have hw0 : 0 ≤ lim.weighted h1 c.now := by
      unfold Limiter.weighted f64ToInt64
      rw [if_pos hno2]
      apply weightedFloor_nonneg lim h1 c.now hI.le _ hp0
      rw [wrap64_of_inInt64 _ hno1]
      omega
    have hest : lim.estimate h1 c.now = lim.weighted h1 c.now + (h1 lim.currWindow).Count := by
      unfold Limiter.estimate
      exact wrap64_of_inInt64 _ hno3
    have hadm : lim.admits h1 c.now c.n = true →
        (h1 lim.currWindow).Count + c.n ≤ lim.threshold ∧
        wrap64 ((h1 lim.currWindow).count + c.n) = (h1 lim.currWindow).count + c.n := by
      intro hadm
      unfold Limiter.admits at hadm
      rw [wrap64_of_inInt64 _ hno4, hest] at hadm
      have hle : lim.weighted h1 c.now + (h1 lim.currWindow).Count + c.n ≤ lim.threshold := by
        simpa using hadm
      rw [hest] at hno4
      unfold SyncWindow.Count at *
      refine ⟨by omega, wrap64_of_inInt64 _ ?_⟩
      unfold inInt64 minInt64 maxInt64 at *
      constructor <;> omega
    obtain ⟨_, hws, hwc⟩ := Sync_frame _ w c.now c.env hw
    have hwc := hwc hresp
    have hcur : (o.heap lim.currWindow) = w := by
      rw [hh, Heap.set_same]
    have hdc : ((lim.decided h1 c.now c.n c.env.clock) lim.currWindow).startTime =
          (h1 lim.currWindow).startTime ∧
        ((lim.decided h1 c.now c.n c.env.clock) lim.currWindow).count =
          (h1 lim.currWindow).count + (if lim.admits h1 c.now c.n = true then c.n else 0) := by
      unfold Limiter.decided
      by_cases hadm' : lim.admits h1 c.now c.n = true
      · rw [if_pos hadm', if_pos hadm', Heap.set_same]
        exact ⟨rfl, (hadm hadm').2⟩
      · rw [if_neg hadm', if_neg hadm']
        exact ⟨rfl, (add_zero _).symm⟩
    have hcount : (o.heap lim.currWindow).Count =
        (h1 lim.currWindow).Count + (if o.allowed = true then c.n else 0) := by
      unfold SyncWindow.Count
      rw [hcur, hwc, hdc.2, ha]
    refine ⟨?_, hcount, ?_, ?_⟩
    · unfold SyncWindow.StartTime Time.Unix0
      rw [hcur, hws, hdc.1]
    · by_cases hp : lim.prevWindow = lim.currWindow
      · rw [hp, hcount]
        split <;> omega
      · rw [hh, Heap.set_other _ _ _ _ hp]
        unfold Limiter.decided
        split
        · rw [Heap.set_other _ _ _ _ hp]
          exact hp0
        · exact hp0
    · intro hal
      rw [ha] at hal
      exact (hadm hal).1

/-- The invariant of a steady sequence of calls. -/
theorem run_steady (lim : Limiter) (hI : 0 < lim.statIntervalInMs)
    (hImax : lim.statIntervalInMs ≤ maxInt64) (cs : List Call) :
    ∀ h : Heap,
      Time.Truncate (h lim.currWindow).StartTime lim.statIntervalInMs =
        (h lim.currWindow).StartTime →
      0 ≤ (h lim.currWindow).Count → 0 ≤ (h lim.prevWindow).Count →
      lim.steady h cs = true →
      ∃ rs h2, lim.run h cs = .ok (rs, h2) ∧
        (h2 lim.currWindow).Count = (h lim.currWindow).Count + admittedSum cs rs ∧
        0 ≤ admittedSum cs rs ∧
        (admittedSum cs rs ≠ 0 → (h lim.currWindow).Count + admittedSum cs rs ≤ lim.threshold) := by
  induction cs with
  | nil =>
    intro h _ _ _ _
    refine ⟨[], h, rfl, ?_, le_refl _, fun hne => absurd rfl hne⟩
    simp [admittedSum]
  | cons c cs ih =>
    intro h halign hc0 hp0 hst
    unfold Limiter.steady at hst
    simp only [Bool.and_eq_true, decide_eq_true_eq] at hst
    obtain ⟨⟨⟨⟨hn, hresp⟩, hspan⟩, hno⟩, hrest⟩ := hst
    have hresp : c.env.response = none := by
      cases hr : c.env.response with
      | none => rfl
      | some r => simp [hr] at hresp
    cases hk : lim.timeSpan h c.now with
    | none => simp [hk] at hspan
    | some k =>
      simp only [hk, decide_eq_true_eq] at hspan
      cases hok : lim.AllowN h c.now c.n c.env with
      | error e => simp [hok] at hrest
      | ok o =>
        simp only [hok] at hrest
        obtain ⟨hs1, hcnt, hp1, hadm⟩ := AllowN_steady_step lim h c o k hI hImax halign hc0 hp0
          hn hresp hk hspan hno hok
        have hc1 : 0 ≤ (o.heap lim.currWindow).Count := by
          rw [hcnt]
          split <;> omega
        obtain ⟨rs, h2, hrun, hfin, hsum0, hsum⟩ := ih o.heap (by rw [hs1]; exact halign)
          hc1 hp1 hrest
        refine ⟨o.allowed :: rs, h2, ?_, ?_, ?_, ?_⟩
        · unfold Limiter.run
          simp only [hok, hrun]
        · rw [hfin, hcnt]
          simp only [admittedSum]
          ring
        · simp only [admittedSum]
          split <;> omega
        · simp only [admittedSum]
          intro hne
          by_cases hz : admittedSum cs rs = 0
          · rw [hz] at hne ⊢
            by_cases hal : o.allowed = true
            · have := hadm hal
              rw [if_pos hal]
              omega
            · rw [if_neg hal] at hne
              exact absurd rfl hne
          · have := hsum hz
            rw [hcnt] at this
            omega

/-- Counterexample of C3: threshold 10, a window at a bucket boundary counting 0, two calls in
that bucket with `n = 1` and `n = 9223372036854775807`, no rotation and no response. Both
return `true`, so the admitted amounts sum to `2 ^ 63`: in the second call the `int64` sum
`count+n` wraps around. -/
theorem admitted_sum_counterexample :
    (exampleLimiter 10).timeSpan (exampleHeap (exampleWindow bucket 0))
      (bucket + 950000000) = some 0 ∧
    (exampleLimiter 10).results (exampleHeap (exampleWindow bucket 0))
      [{ now := bucket + 950000000, n := 1, env := exampleEnv (bucket + 950000000) },
       { now := bucket + 950000000, n := 9223372036854775807,
         env := exampleEnv (bucket + 950000000) }] = some [true, true] ∧
    ¬ (admittedSum
      [{ now := bucket + 950000000, n := 1, env := exampleEnv (bucket + 950000000) },
       { now := bucket + 950000000, n := 9223372036854775807,
         env := exampleEnv (bucket + 950000000) }] [true, true] ≤
      (exampleLimiter 10).threshold) := by
  refine ⟨by decide, by decide, by decide⟩

/-- C3, amended: let the interval be positive, the threshold not negative, the current window
start at a bucket boundary and the counts of both windows be non-negative. For every sequence
of returning `AllowN` calls with `n ≥ 0` during which the current window does not rotate, no
reconciliation response is applied and no `int64` operation overflows, the sum of the `n` of
the calls that returned `true` is at most `threshold`, and the current count has grown by
exactly that sum. -/
theorem admitted_sum_le_threshold (lim : Limiter) (h : Heap) (cs : List Call)
    (hI : 0 < lim.statIntervalInMs) (hIr : inInt64 lim.statIntervalInMs)
    (hT : 0 ≤ lim.threshold)
    (halign : Time.Truncate (h lim.currWindow).StartTime lim.statIntervalInMs =
      (h lim.currWindow).StartTime)
    (hc0 : 0 ≤ (h lim.currWindow).Count) (hp0 : 0 ≤ (h lim.prevWindow).Count)
    (hst : lim.steady h cs = true) :
    ∃ rs h2, lim.run h cs = .ok (rs, h2) ∧ admittedSum cs rs ≤ lim.threshold ∧
      (h2 lim.currWindow).Count = (h lim.currWindow).Count + admittedSum cs rs := by
  obtain ⟨rs, h2, hrun, hfin, _, hsum⟩ := run_steady lim hI hIr.2 cs h halign hc0 hp0 hst
  refine ⟨rs, h2, hrun, ?_, hfin⟩
  by_cases hz : admittedSum cs rs = 0
  · rw [hz]
    exact hT
  · have := hsum hz
    omega

/-- Witness of C3, amended: threshold 10 and eleven single-unit calls late in one bucket; ten
are admitted. -/
theorem admitted_sum_le_threshold_witness :
    ∃ rs h2, (exampleLimiter 10).run (exampleHeap (exampleWindow bucket 0))
        (elevenCalls (bucket + 950000000)) = .ok (rs, h2) ∧
      admittedSum (elevenCalls (bucket + 950000000)) rs ≤ (exampleLimiter 10).threshold ∧
      (h2 (exampleLimiter 10).currWindow).Count =
        ((exampleHeap (exampleWindow bucket 0)) (exampleLimiter 10).currWindow).Count +
          admittedSum (elevenCalls (bucket + 950000000)) rs :=
  admitted_sum_le_threshold (exampleLimiter 10) (exampleHeap (exampleWindow bucket 0))
    (elevenCalls (bucket + 950000000)) (by decide) (by decide) (by decide) (by decide)
    (by decide) (by decide) (by decide)

/-! ## Store keys -/

theorem digitChar_toNat : ∀ d < 10, (Nat.digitChar d).toNat - 48 = d := by decide

theorem digitChar_ne : ∀ d < 10, Nat.digitChar d ≠ '_' ∧ Nat.digitChar d ≠ '-' := by decide

theorem toDigitsCore_append (fuel : Nat) :
    ∀ (n : Nat) (ds : List Char),
      Nat.toDigitsCore 10 fuel n ds = Nat.toDigitsCore 10 fuel n [] ++ ds := by
  induction fuel with
  | zero =>
    intro n ds
    simp [Nat.toDigitsCore]
  | succ fuel ih =>
    intro n ds
    simp only [Nat.toDigitsCore]
    split
    · simp
    · rw [ih (n / 10) (Nat.digitChar (n % 10) :: ds), ih (n / 10) [Nat.digitChar (n % 10)]]
      simp

theorem toDigitsCore_mem (fuel : Nat) :
    ∀ (n : Nat) (c : Char), c ∈ Nat.toDigitsCore 10 fuel n [] → ∃ d, d < 10 ∧ c = Nat.digitChar d := by
  induction fuel with
  | zero =>
    intro n c hc
    simp [Nat.toDigitsCore] at hc
  | succ fuel ih =>
    intro n c hc
    simp only [Nat.toDigitsCore] at hc
    split at hc
    · simp only [List.mem_singleton] at hc
      exact ⟨n % 10, Nat.mod_lt _ (by norm_num), hc⟩
    · rw [toDigitsCore_append] at hc
      rcases List.mem_append.mp hc with h | h
      · exact ih _ _ h
      · simp only [List.mem_singleton] at h
        exact ⟨n % 10, Nat.mod_lt _ (by norm_num), h⟩

/-- The value of a digit string, most significant digit first. -/
theorem toDigitsCore_value (fuel : Nat) :
    ∀ n : Nat, n < fuel →
      (Nat.toDigitsCore 10 fuel n []).foldl (fun acc c => 10 * acc + (c.toNat - 48)) 0 = n := by
  induction fuel with
  | zero =>
    intro n hn
    exact absurd hn (Nat.not_lt_zero _)
  | succ fuel ih =>
    intro n hn
    simp only [Nat.toDigitsCore]
    split
    · rename_i h0
      simp only [List.foldl]
      rw [digitChar_toNat _ (Nat.mod_lt _ (by norm_num))]
      omega
    · rename_i h0
      rw [toDigitsCore_append, List.foldl_append, ih (n / 10) (by omega)]
      simp only [List.foldl]
      rw [digitChar_toNat _ (Nat.mod_lt _ (by norm_num))]
      omega

theorem toDigits_injective (a b : Nat) (h : Nat.toDigits 10 a = Nat.toDigits 10 b) : a = b := by
  have ha := toDigitsCore_value (a + 1) a (Nat.lt_succ_self a)
  have hb := toDigitsCore_value (b + 1) b (Nat.lt_succ_self b)
  unfold Nat.toDigits at h
  rw [h, hb] at ha
  exact ha.symm

theorem toDigits_not_mem (n : Nat) : '_' ∉ Nat.toDigits 10 n ∧ '-' ∉ Nat.toDigits 10 n := by
  constructor
  · intro hm
    obtain ⟨d, hd, e⟩ := toDigitsCore_mem _ _ _ hm
    exact (digitChar_ne d hd).1 e.symm
  · intro hm
    obtain ⟨d, hd, e⟩ := toDigitsCore_mem _ _ _ hm
    exact (digitChar_ne d hd).2 e.symm

theorem formatInt_data (start : Int) :
    (∃ m : Nat, start = Int.ofNat m ∧ (formatInt start).data = Nat.toDigits 10 m) ∨
    (∃ m : Nat, start = Int.negSucc m ∧ (formatInt start).data = '-' :: Nat.toDigits 10 (m + 1)) := by
  cases start with
  | ofNat m => exact Or.inl ⟨m, rfl, rfl⟩
  | negSucc m => exact Or.inr ⟨m, rfl, rfl⟩

theorem formatInt_not_mem (start : Int) : '_' ∉ (formatInt start).data := by
  rcases formatInt_data start with ⟨m, _, e⟩ | ⟨m, _, e⟩
  · rw [e]
    exact (toDigits_not_mem m).1
  · rw [e]
    intro hm
    rcases List.mem_cons.mp hm with h | h
    · exact absurd h (by decide)
    · exact (toDigits_not_mem _).1 h

theorem formatInt_injective (a b : Int) (h : formatInt a = formatInt b) : a = b := by
  have hd : (formatInt a).data = (formatInt b).data := by rw [h]
  rcases formatInt_data a with ⟨m, ea, da⟩ | ⟨m, ea, da⟩ <;>
    rcases formatInt_data b with ⟨k, eb, db⟩ | ⟨k, eb, db⟩
  · rw [da, db] at hd
    rw [ea, eb, toDigits_injective m k hd]
  · rw [da, db] at hd
    exfalso
    apply (toDigits_not_mem m).2
    rw [hd]
    exact List.mem_cons_self _ _
  · rw [da, db] at hd
    exfalso
    apply (toDigits_not_mem k).2
    rw [← hd]
    exact List.mem_cons_self _ _
  · rw [da, db] at hd
    injection hd with _ ht
    have := toDigits_injective _ _ ht
    rw [ea, eb]
    congr 1
    omega

/-- Two lists that end in the same separator followed by separator-free tails agree in both
parts. -/
theorem append_cons_inj_last {α : Type} (a : α) :
    ∀ (xs ys s t : List α), a ∉ s → a ∉ t → xs ++ a :: s = ys ++ a :: t → xs = ys ∧ s = t := by
  intro xs
  induction xs with
  | nil =>
    intro ys s t hs ht h
    cases ys with
    | nil =>
      simp only [List.nil_append] at h
      injection h with _ h2
      exact ⟨rfl, h2⟩
    | cons y ys =>
      simp only [List.nil_append, List.cons_append] at h
      injection h with _ h2
      exfalso
      apply hs
      rw [h2]
      simp
  | cons x xs ih =>
    intro ys s t hs ht h
    cases ys with
    | nil =>
      simp only [List.nil_append, List.cons_append] at h
      injection h with _ h2
      exfalso
      apply ht
      rw [← h2]
      simp
    | cons y ys =>
      simp only [List.cons_append] at h
      injection h with h1 h2
      obtain ⟨e1, e2⟩ := ih ys s t hs ht h2
      exact ⟨by rw [h1, e1], e2⟩

/-- The store key determines the logical key and the bucket start. -/
theorem formatKey_inj (k1 k2 : String) (s1 s2 : Int)
    (h : formatKey k1 s1 = formatKey k2 s2) : k1 = k2 ∧ s1 = s2 := by
  have hd : (formatKey k1 s1).data = (formatKey k2 s2).data := by rw [h]
  unfold formatKey at hd
  simp only [String.data_append] at hd
  rw [List.append_assoc, List.append_assoc] at hd
  simp only [List.singleton_append] at hd
  obtain ⟨e1, e2⟩ := append_cons_inj_last '_' _ _ _ _ (formatInt_not_mem s1)
    (formatInt_not_mem s2) hd
  exact ⟨String.ext e1, formatInt_injective s1 s2 (String.ext e2)⟩

/-- C20: `formatKey` is injective: equal store keys come from the same logical key and the
same bucket start, whatever characters the keys contain and whatever the sign of the starts. -/
theorem formatKey_injective (k1 k2 : String) (s1 s2 : Int)
    (h : formatKey k1 s1 = formatKey k2 s2) : k1 = k2 ∧ s1 = s2 :=
  formatKey_inj k1 k2 s1 s2 h

/-- Witness of C20: the key of `("a_1", -2)`, which is `a_1_-2`. -/
theorem formatKey_injective_witness :
    formatKey "a_1" (-2) = "a_1_-2" ∧ ("a_1" = "a_1" ∧ (-2 : Int) = -2) :=
  ⟨by decide, formatKey_injective "a_1" "a_1" (-2) (-2) rfl⟩

/-! ## The worker's `sync` -/

theorem handleSyncResponse_zero (w : SyncWindow) :
    w.handleSyncResponse SyncResponse.zero = w := by
  unfold SyncWindow.handleSyncResponse
  rw [if_neg]
  rintro ⟨hs, _⟩
  exact Bool.noConfusion hs

/-- On a recording store `syncOn` asks the one call `storeCall req` and leaves it recorded. -/
theorem syncOn_recording (store : StoreCall → StoreResult) (log : List StoreCall)
    (req : SyncRequest) :
    syncHelper.syncOn (recordingStore store) log req =
      ((match (store (syncHelper.storeCall req)).2 with
        | some StoreError.notFound => (SyncResponse.zero, none)
        | some e => (SyncResponse.zero, some e)
        | none =>
          ({ Success := true, Start := req.Start, LocalDelta := req.Delta,
             CounterpartDelta := wrap64 ((store (syncHelper.storeCall req)).1 - req.Delta) },
            none)),
        log ++ [syncHelper.storeCall req]) := by
  unfold syncHelper.syncOn syncHelper.storeCall recordingStore
  by_cases hd : 0 < req.Delta
  · simp only [if_pos hd]
    split <;> rename_i h <;> simp only [h]
  · simp only [if_neg hd]
    split <;> rename_i h <;> simp only [h]

theorem sync_calls (store : StoreCall → StoreResult) (req : SyncRequest) :
    (syncHelper.sync store req).calls = [syncHelper.storeCall req] := by
  unfold syncHelper.sync
  dsimp only
  rw [syncOn_recording]
  rfl

theorem sync_ok (store : StoreCall → StoreResult) (req : SyncRequest)
    (hok : (store (syncHelper.storeCall req)).2 = none) :
    syncHelper.sync store req =
      { resp := { Success := true, Start := req.Start, LocalDelta := req.Delta,
                  CounterpartDelta :=
                    wrap64 ((store (syncHelper.storeCall req)).1 - req.Delta) },
        err := none, calls := [syncHelper.storeCall req] } := by
  unfold syncHelper.sync
  dsimp only
  rw [syncOn_recording, hok]
  rfl

theorem sync_notFound (store : StoreCall → StoreResult) (req : SyncRequest)
    (he : (store (syncHelper.storeCall req)).2 = some StoreError.notFound) :
    syncHelper.sync store req =
      { resp := SyncResponse.zero, err := none, calls := [syncHelper.storeCall req] } := by
  unfold syncHelper.sync
  dsimp only
  rw [syncOn_recording, he]
  rfl

theorem sync_other (store : StoreCall → StoreResult) (req : SyncRequest) (msg : String)
    (he : (store (syncHelper.storeCall req)).2 = some (StoreError.other msg)) :
    syncHelper.sync store req =
      { resp := SyncResponse.zero, err := some (StoreError.other msg),
        calls := [syncHelper.storeCall req] } := by
  unfold syncHelper.sync
  dsimp only
  rw [syncOn_recording, he]
  rfl

/-- C13: `syncHelper.sync` performs exactly one store operation. For every store and every
state of it, when `delta > 0` the store is left in the state in which `Add(key, start, delta)`
leaves it, and otherwise in the state in which `Get(key, start)` leaves it; the response is
successful exactly when that operation returned no error, and then it has `Success = true`,
the request's start, `LocalDelta` equal to the request's delta and no error. A store that
records its calls has received that one call and no other. -/
theorem sync_one_store_call {σ : Type} (store : DataStore σ) (st : σ) (req : SyncRequest) :
    (0 < req.Delta →
      (syncHelper.syncOn store st req).2 = (store.Add st req.Key req.Start req.Delta).2 ∧
      ((syncHelper.syncOn store st req).1.1.Success = true ↔
        (store.Add st req.Key req.Start req.Delta).1.2 = none) ∧
      ((store.Add st req.Key req.Start req.Delta).1.2 = none →
        (syncHelper.syncOn store st req).1.1.Success = true ∧
        (syncHelper.syncOn store st req).1.1.Start = req.Start ∧
        (syncHelper.syncOn store st req).1.1.LocalDelta = req.Delta ∧
        (syncHelper.syncOn store st req).1.2 = none)) ∧
    (¬ 0 < req.Delta →
      (syncHelper.syncOn store st req).2 = (store.Get st req.Key req.Start).2 ∧
      ((syncHelper.syncOn store st req).1.1.Success = true ↔
        (store.Get st req.Key req.Start).1.2 = none) ∧
      ((store.Get st req.Key req.Start).1.2 = none →
        (syncHelper.syncOn store st req).1.1.Success = true ∧
        (syncHelper.syncOn store st req).1.1.Start = req.Start ∧
        (syncHelper.syncOn store st req).1.1.LocalDelta = req.Delta ∧
        (syncHelper.syncOn store st req).1.2 = none)) ∧
    (∀ (answer : StoreCall → StoreResult) (log : List StoreCall),
      (syncHelper.syncOn (recordingStore answer) log req).2 =
        log ++ [if 0 < req.Delta then StoreCall.Add req.Key req.Start req.Delta
          else StoreCall.Get req.Key req.Start]) := by
  have key : ∀ r : StoreResult × σ,
      (match r.1.2 with
        | some StoreError.notFound => ((SyncResponse.zero, (none : Option StoreError)), r.2)
        | some e => ((SyncResponse.zero, some e), r.2)
        | none =>
          (({ Success := true, Start := req.Start, LocalDelta := req.Delta,
              CounterpartDelta := wrap64 (r.1.1 - req.Delta) }, none), r.2)) =
        syncHelper.syncOn store st req →
      (syncHelper.syncOn store st req).2 = r.2 ∧
      ((syncHelper.syncOn store st req).1.1.Success = true ↔ r.1.2 = none) ∧
      (r.1.2 = none →
        (syncHelper.syncOn store st req).1.1.Success = true ∧
        (syncHelper.syncOn store st req).1.1.Start = req.Start ∧
        (syncHelper.syncOn store st req).1.1.LocalDelta = req.Delta ∧
        (syncHelper.syncOn store st req).1.2 = none) := by
    intro r hr
    rw [← hr]
    cases he : r.1.2 with
    | none =>
      exact ⟨rfl, ⟨fun _ => rfl, fun _ => rfl⟩, fun _ => ⟨rfl, rfl, rfl, rfl⟩⟩
    | some e =>
      cases e with
      | notFound =>
        refine ⟨rfl, ⟨fun h => ?_, fun h => ?_⟩, fun h => ?_⟩
        · exact Bool.noConfusion h
        · exact Option.noConfusion h
        · exact Option.noConfusion h
      | other msg =>
        refine ⟨rfl, ⟨fun h => ?_, fun h => ?_⟩, fun h => ?_⟩
        · exact Bool.noConfusion h
        · exact Option.noConfusion h
        · exact Option.noConfusion h
  refine ⟨?_, ?_, ?_⟩
  · intro hd
    apply key
    unfold syncHelper.syncOn
    simp only [if_pos hd]
  · intro hd
    apply key
    unfold syncHelper.syncOn
    simp only [if_neg hd]
  · intro answer log
    rw [syncOn_recording]
    rfl

/-- Witness of C13: on a store that records its calls, a request with delta 2 leaves the single
call `Add("k", 1000, 2)` recorded and, the call having succeeded, gets a response that
acknowledges it; a request with delta 0 leaves the single call `Get("k", 1000)` recorded. -/
theorem sync_one_store_call_witness :
    ((syncHelper.syncOn (recordingStore (exampleStore 7 none)) [] (exampleRequest 2)).2 =
        [StoreCall.Add "k" 1000 2] ∧
      (syncHelper.syncOn (recordingStore (exampleStore 7 none)) []
        (exampleRequest 2)).1.1.Success = true ∧
      (syncHelper.syncOn (recordingStore (exampleStore 7 none)) []
        (exampleRequest 2)).1.1.Start = 1000 ∧
      (syncHelper.syncOn (recordingStore (exampleStore 7 none)) []
        (exampleRequest 2)).1.1.LocalDelta = 2 ∧
      (syncHelper.syncOn (recordingStore (exampleStore 7 none)) []
        (exampleRequest 2)).1.2 = none) ∧
    (syncHelper.syncOn (recordingStore (exampleStore 7 none)) [] (exampleRequest 0)).2 =
      [StoreCall.Get "k" 1000] :=
  ⟨⟨((sync_one_store_call (recordingStore (exampleStore 7 none)) [] (exampleRequest 2)).1
        (by decide)).1,
      ((sync_one_store_call (recordingStore (exampleStore 7 none)) [] (exampleRequest 2)).1
        (by decide)).2.2 rfl⟩,
    ((sync_one_store_call (recordingStore (exampleStore 7 none)) [] (exampleRequest 0)).2.1
      (by decide)).1⟩

/-- Counterexample of C14: a request with delta -2 only reads; the store returns 5 and the
response has `CounterpartDelta = 7`, not the store's raw value 5. -/
theorem sync_counterpartDelta_counterexample :
    (syncHelper.sync (exampleStore 5 none) (exampleRequest (-2))).calls =
      [StoreCall.Get "k" 1000] ∧
    (syncHelper.sync (exampleStore 5 none) (exampleRequest (-2))).resp.Success = true ∧
    (syncHelper.sync (exampleStore 5 none) (exampleRequest (-2))).resp.CounterpartDelta = 7 ∧
    (syncHelper.sync (exampleStore 5 none) (exampleRequest (-2))).resp.CounterpartDelta ≠ 5 := by
  decide

/-- C14, amended: for every request whose store operation succeeds with value `v`, pushed or
only read, the response's `CounterpartDelta` is the `int64` difference `v - delta`, which is the
integer `v - delta` whenever that is representable; for a read it is the store's raw value
`v` exactly when the request's delta is 0. -/
theorem sync_counterpartDelta (store : StoreCall → StoreResult) (req : SyncRequest)
    (hok : (store (syncHelper.storeCall req)).2 = none) :
    (syncHelper.sync store req).resp.CounterpartDelta =
      wrap64 ((store (syncHelper.storeCall req)).1 - req.Delta) ∧
    (inInt64 ((store (syncHelper.storeCall req)).1 - req.Delta) →
      (syncHelper.sync store req).resp.CounterpartDelta =
        (store (syncHelper.storeCall req)).1 - req.Delta) ∧
    (inInt64 ((store (syncHelper.storeCall req)).1 - req.Delta) →
      ((syncHelper.sync store req).resp.CounterpartDelta = (store (syncHelper.storeCall req)).1 ↔
        req.Delta = 0)) := by
  rw [sync_ok store req hok]
  refine ⟨rfl, ?_, ?_⟩
  · intro hr
    exact wrap64_of_inInt64 _ hr
  · intro hr
    show wrap64 _ = _ ↔ _
    rw [wrap64_of_inInt64 _ hr]
    constructor <;> intro h <;> omega

/-- Witness of C14, amended: a push of delta 2 answered with the total 7 reports 5 admissions
of other instances. -/
theorem sync_counterpartDelta_witness :
    (syncHelper.sync (exampleStore 7 none) (exampleRequest 2)).resp.CounterpartDelta = 7 - 2 :=
  (sync_counterpartDelta (exampleStore 7 none) (exampleRequest 2) rfl).2.1 (by decide)

/-- C15: when the store reports not-found, `syncHelper.sync` returns the zero response
(`Success = false`) and no error; when it reports another error, it returns the zero response
and that error; in both cases the response leaves every window unchanged. -/
theorem sync_store_error (store : StoreCall → StoreResult) (req : SyncRequest) :
    ((store (syncHelper.storeCall req)).2 = some StoreError.notFound →
      (syncHelper.sync store req).resp.Success = false ∧
      (syncHelper.sync store req).err = none ∧
      ∀ w : SyncWindow, w.handleSyncResponse (syncHelper.sync store req).resp = w) ∧
    (∀ msg, (store (syncHelper.storeCall req)).2 = some (StoreError.other msg) →
      (syncHelper.sync store req).resp.Success = false ∧
      (syncHelper.sync store req).err = some (StoreError.other msg) ∧
      ∀ w : SyncWindow, w.handleSyncResponse (syncHelper.sync store req).resp = w) := by
  constructor
  · intro he
    have e : syncHelper.sync store req =
        { resp := SyncResponse.zero, err := none, calls := [syncHelper.storeCall req] } :=
      sync_notFound store req he
    rw [e]
    exact ⟨rfl, rfl, handleSyncResponse_zero⟩
  · intro msg he
    have e : syncHelper.sync store req =
        { resp := SyncResponse.zero, err := some (StoreError.other msg),
          calls := [syncHelper.storeCall req] } :=
      sync_other store req msg he
    rw [e]
    exact ⟨rfl, rfl, handleSyncResponse_zero⟩

/-- Witness of C15: a read of a counter that does not exist yet, and a store that times out. -/
theorem sync_store_error_witness :
    ((syncHelper.sync (exampleStore 0 (some StoreError.notFound)) (exampleRequest 0)).resp.Success
        = false ∧
      (syncHelper.sync (exampleStore 0 (some StoreError.notFound)) (exampleRequest 0)).err
        = none ∧
      ∀ w : SyncWindow, w.handleSyncResponse
        (syncHelper.sync (exampleStore 0 (some StoreError.notFound)) (exampleRequest 0)).resp
          = w) ∧
    ((syncHelper.sync (exampleStore 0 (some (StoreError.other "timeout")))
        (exampleRequest 2)).resp.Success = false ∧
      (syncHelper.sync (exampleStore 0 (some (StoreError.other "timeout")))
        (exampleRequest 2)).err = some (StoreError.other "timeout") ∧
      ∀ w : SyncWindow, w.handleSyncResponse
        (syncHelper.sync (exampleStore 0 (some (StoreError.other "timeout")))
          (exampleRequest 2)).resp = w) :=
  ⟨(sync_store_error (exampleStore 0 (some StoreError.notFound)) (exampleRequest 0)).1 rfl,
    (sync_store_error (exampleStore 0 (some (StoreError.other "timeout")))
      (exampleRequest 2)).2 "timeout" rfl⟩

/-! ## The synchronizer -/

/-- `Sync` is its first statement followed by its second. -/
theorem Sync_eq_steps (f : FastSynchronizer) (now : Int) (req : SyncRequest) (env : SyncEnv) :
    f.Sync now req env =
      { sync := { helper := ((f.handoff now req env).1.harvest env).1 },
        sent := (f.handoff now req env).2,
        handled := ((f.handoff now req env).1.harvest env).2 } := by
  unfold FastSynchronizer.Sync FastSynchronizer.handoff syncHelper.harvest
  dsimp only
  cases hh : (f.helper.couldSync now && env.workerReady) <;>
    cases he : env.response <;>
    dsimp only [if_true, if_false, Bool.false_eq_true] <;>
    simp only [Bool.false_eq_true, if_true, if_false] <;>
    split <;> rfl

/-- C17: the single in-flight gate of `Sync`, which is its handoff statement followed by its
receive statement. (1) A request is handed to the worker only if
`running` is false and `now - lastSynced ≥ syncInterval`; (2) an accepted handoff sets
`running` and sets `lastSynced` to `now`; (3) when the gate fails or the worker does not
accept, nothing is handed off and the helper is unchanged by the handoff statement; (4) the
receive statement clears `running` only together with passing a received response to the
handler, and changes nothing else; (5) over a whole `Sync` call `running` goes from true to
false only if a response was handled, and while `running` is set no request is handed off. -/
theorem Sync_single_in_flight (f : FastSynchronizer) (now : Int) (req : SyncRequest)
    (env : SyncEnv) :
    f.Sync now req env =
      { sync := { helper := ((f.handoff now req env).1.harvest env).1 },
        sent := (f.handoff now req env).2,
        handled := ((f.handoff now req env).1.harvest env).2 } ∧
    ((f.handoff now req env).2 ≠ none →
      f.helper.running = false ∧ f.helper.syncInterval ≤ Time.Sub now f.helper.lastSynced) ∧
    ((f.handoff now req env).2 ≠ none →
      (f.handoff now req env).2 = some req ∧ (f.handoff now req env).1.running = true ∧
      (f.handoff now req env).1.lastSynced = now) ∧
    ((¬ (f.helper.running = false ∧ f.helper.syncInterval ≤ Time.Sub now f.helper.lastSynced) ∨
        env.workerReady = false) →
      (f.handoff now req env).2 = none ∧ (f.handoff now req env).1 = f.helper) ∧
    (∀ s : syncHelper,
      ((s.harvest env).1.running = false → s.running = true →
        ∃ r, env.response = some r ∧ (s.harvest env).2 = some r) ∧
      ((s.harvest env).2 ≠ none → s.running = true ∧ (s.harvest env).1.running = false) ∧
      (s.harvest env).1.lastSynced = s.lastSynced) ∧
    (f.helper.running = true →
      (f.Sync now req env).sent = none ∧
      (f.Sync now req env).sync.helper.lastSynced = f.helper.lastSynced ∧
      ((f.Sync now req env).sync.helper.running = false →
        (f.Sync now req env).handled ≠ none)) := by
  have hcs : f.helper.couldSync now = true ↔
      (f.helper.running = false ∧ f.helper.syncInterval ≤ Time.Sub now f.helper.lastSynced) := by
    unfold syncHelper.couldSync
    simp
  have hharv : ∀ s : syncHelper,
      ((s.harvest env).1.running = false → s.running = true →
        ∃ r, env.response = some r ∧ (s.harvest env).2 = some r) ∧
      ((s.harvest env).2 ≠ none → s.running = true ∧ (s.harvest env).1.running = false) ∧
      (s.harvest env).1.lastSynced = s.lastSynced := by
    intro s
    unfold syncHelper.harvest
    by_cases hr : s.running = true
    · rw [if_pos hr]
      cases he : env.response with
      | none =>
        refine ⟨fun h1 _ => ?_, fun h1 => absurd rfl h1, rfl⟩
        dsimp only at h1
        rw [hr] at h1
        exact Bool.noConfusion h1
      | some r => exact ⟨fun _ _ => ⟨r, rfl, rfl⟩, fun _ => ⟨hr, rfl⟩, rfl⟩
    · rw [if_neg hr]
      exact ⟨fun _ h2 => absurd h2 hr, fun h1 => absurd rfl h1, rfl⟩
  refine ⟨Sync_eq_steps f now req env, ?_, ?_, ?_, hharv, ?_⟩
  · intro hs
    unfold FastSynchronizer.handoff at hs
    by_cases hh : (f.helper.couldSync now && env.workerReady) = true
    · rw [Bool.and_eq_true] at hh
      exact hcs.mp hh.1
    · rw [if_neg hh] at hs
      exact absurd rfl hs
  · intro hs
    unfold FastSynchronizer.handoff at hs ⊢
    by_cases hh : (f.helper.couldSync now && env.workerReady) = true
    · rw [if_pos hh]
      exact ⟨rfl, rfl, rfl⟩
    · rw [if_neg hh] at hs
      exact absurd rfl hs
  · intro hn
    have hh : ¬ (f.helper.couldSync now && env.workerReady) = true := by
      rw [Bool.and_eq_true]
      rintro ⟨h1, h2⟩
      rcases hn with h | h
      · exact h (hcs.mp h1)
      · rw [h] at h2
        exact Bool.noConfusion h2
    unfold FastSynchronizer.handoff
    rw [if_neg hh]
    exact ⟨rfl, rfl⟩
  · intro hr
    have hh : ¬ (f.helper.couldSync now && env.workerReady) = true := by
      rw [Bool.and_eq_true]
      rintro ⟨h1, _⟩
      have := (hcs.mp h1).1
      rw [hr] at this
      exact Bool.noConfusion this
    have e : f.handoff now req env = (f.helper, none) := by
      unfold FastSynchronizer.handoff
      rw [if_neg hh]
    rw [Sync_eq_steps, e]
    refine ⟨rfl, (hharv f.helper).2.2, ?_⟩
    intro h1
    obtain ⟨r, _, h3⟩ := (hharv f.helper).1 h1 hr
    dsimp only
    rw [h3]
    exact Option.some_ne_none r

/-- Witness of C17: an idle synchronizer whose interval has passed hands the request off and
becomes running; a running one hands nothing off and becomes idle by handling the response
that is ready. -/
theorem Sync_single_in_flight_witness :
    ((exampleSynchronizer false 0).helper.running = false ∧
      (exampleSynchronizer false 0).helper.syncInterval ≤
        Time.Sub 500000000 (exampleSynchronizer false 0).helper.lastSynced) ∧
    (((exampleSynchronizer false 0).handoff 500000000 (exampleRequest 2) (workerEnv none)).2 =
        some (exampleRequest 2) ∧
      ((exampleSynchronizer false 0).handoff 500000000 (exampleRequest 2)
        (workerEnv none)).1.running = true ∧
      ((exampleSynchronizer false 0).handoff 500000000 (exampleRequest 2)
        (workerEnv none)).1.lastSynced = 500000000) ∧
    (((exampleSynchronizer true 0).Sync 500000000 (exampleRequest 2)
        (workerEnv (some (exampleResponse 1000 2 5)))).sent = none ∧
      ((exampleSynchronizer true 0).Sync 500000000 (exampleRequest 2)
        (workerEnv (some (exampleResponse 1000 2 5)))).sync.helper.lastSynced =
          (exampleSynchronizer true 0).helper.lastSynced ∧
      (((exampleSynchronizer true 0).Sync 500000000 (exampleRequest 2)
          (workerEnv (some (exampleResponse 1000 2 5)))).sync.helper.running = false →
        ((exampleSynchronizer true 0).Sync 500000000 (exampleRequest 2)
          (workerEnv (some (exampleResponse 1000 2 5)))).handled ≠ none)) :=
  ⟨(Sync_single_in_flight (exampleSynchronizer false 0) 500000000 (exampleRequest 2)
      (workerEnv none)).2.1 (by decide),
    (Sync_single_in_flight (exampleSynchronizer false 0) 500000000 (exampleRequest 2)
      (workerEnv none)).2.2.1 (by decide),
    (Sync_single_in_flight (exampleSynchronizer true 0) 500000000 (exampleRequest 2)
      (workerEnv (some (exampleResponse 1000 2 5)))).2.2.2.2.2 rfl⟩

/-! ## Window starts after a rotation -/

/-- C19, what the code does: in a limiter from `NewLimiter` both window fields are the same
record, so after every rotation `prevWindow.StartTime()` equals `currWindow.StartTime()`, which
is `now` truncated to the interval (as `UnixNano` stores it); it is not one interval earlier
unless the interval is zero. -/
theorem rotate_NewLimiter_start (I T : Int) (p : Nat) (h h1 : Heap) (now k : Int)
    (hk : (NewLimiter I T p).timeSpan h now = some k) (h1k : 1 ≤ k)
    (hrot : (NewLimiter I T p).rotate h now = .ok h1) :
    (h1 (NewLimiter I T p).prevWindow).StartTime = (h1 (NewLimiter I T p).currWindow).StartTime ∧
    (h1 (NewLimiter I T p).currWindow).StartTime = Time.UnixNano (Time.Truncate now I) ∧
    (I ≠ 0 → (h1 (NewLimiter I T p).prevWindow).StartTime ≠
      (h1 (NewLimiter I T p).currWindow).StartTime - I) := by
  unfold Limiter.rotate at hrot
  simp only [hk, if_pos h1k] at hrot
  injection hrot with hrot
  subst hrot
  have hp : (NewLimiter I T p).prevWindow = (NewLimiter I T p).currWindow := rfl
  rw [hp, Heap.set_same]
  refine ⟨rfl, rfl, ?_⟩
  intro hI he
  omega

/-- Witness of C19: the window is in bucket `bucket`; the call one interval later rotates with
`timeSpan = 1` and leaves both `prevWindow.StartTime()` and `currWindow.StartTime()` at
`bucket + 1s`. -/
theorem rotate_NewLimiter_start_witness :
    (exampleLimiter 10).timeSpan (exampleHeap (exampleWindow bucket 3))
      (bucket + 1000000000) = some 1 ∧
    (∃ h1, (exampleLimiter 10).rotate (exampleHeap (exampleWindow bucket 3))
        (bucket + 1000000000) = .ok h1) ∧
    ∀ h1, (exampleLimiter 10).rotate (exampleHeap (exampleWindow bucket 3))
        (bucket + 1000000000) = .ok h1 →
      (h1 (exampleLimiter 10).prevWindow).StartTime = bucket + 1000000000 ∧
      (h1 (exampleLimiter 10).currWindow).StartTime = bucket + 1000000000 :=
  ⟨by decide, rotate_isOk _ _ _ (by decide), fun h1 hrot =>
    have t := rotate_NewLimiter_start 1000000000 10 0 (exampleHeap (exampleWindow bucket 3)) h1
      (bucket + 1000000000) 1 (by decide) (by decide) hrot
    ⟨t.1.trans (t.2.1.trans (by decide)), t.2.1.trans (by decide)⟩⟩

/-! ## The process-local store -/

/-- C11, at the failing input. (1) On the store `NewMemoryDataStore` builds, `Add` and `Get`
panic: its cache is the zero value `cache.Cache{}`, a nil pointer. (2) On a store with an
initialised empty cache and a one second expiration, `Add("k", 100, 5)` returns 10, the
following `Add("k", 100, 3)` returns 13 and `Get("k", 100)` then returns 13: `Add` first stores
`value` under a missing key and then increments by `value` again. -/
theorem scenarioB_memory_store :
    (∀ (ttl : Int) (key : String) (start value now : Int) (clock : AddClock),
      (NewMemoryDataStore ttl).Add key start value clock = .error .nilDereference ∧
      (NewMemoryDataStore ttl).Get key start now = .error .nilDereference) ∧
    storeAnswer ((memoryStore 1000000000).Add "k" 100 5 (addClock bucket)) =
      some (10, none) ∧
    storeAnswer ((storeAfter (memoryStore 1000000000)
      ((memoryStore 1000000000).Add "k" 100 5 (addClock bucket))).Add "k" 100 3
        (addClock (bucket + 10000))) = some (13, none) ∧
    storeAnswer ((storeAfter (memoryStore 1000000000)
      ((storeAfter (memoryStore 1000000000)
        ((memoryStore 1000000000).Add "k" 100 5 (addClock bucket))).Add "k" 100 3
          (addClock (bucket + 10000)))).Get "k" 100 (bucket + 20000)) = some (13, none) := by
  refine ⟨fun _ _ _ _ _ _ => ⟨rfl, rfl⟩, by decide, by decide, by decide⟩

/-- C12, at the failing input: on the store `NewMemoryDataStore` builds, `Get` does not fail
with the not-found error, it panics, whatever the key, the start and the clock reading: the
cache is the zero value `cache.Cache{}`, a nil pointer. So does the claim's own witness: on
that store `Add("k", 100, 5)` panics, and so does `Get("k", 999)`. -/
theorem memory_store_get_panics :
    (∀ (ttl : Int) (key : String) (start now : Int),
      (NewMemoryDataStore ttl).Get key start now = .error .nilDereference ∧
      storeAnswer ((NewMemoryDataStore ttl).Get key start now) ≠
        some (0, some StoreError.notFound)) ∧
    storeAnswer ((NewMemoryDataStore 1000000000).Add "k" 100 5 (addClock bucket)) = none ∧
    storeAnswer ((storeAfter (NewMemoryDataStore 1000000000)
      ((NewMemoryDataStore 1000000000).Add "k" 100 5 (addClock bucket))).Get "k" 999
        (bucket + 10000)) = none := by
  refine ⟨fun _ _ _ _ => ⟨rfl, ?_⟩, by decide, by decide⟩
  intro h
  exact Option.noConfusion h

/-! ## Sign of the weight and of the count -/

/-- C16, at the failing input: a limiter from `NewLimiter` (interval one second, threshold 10)
on a window from `NewSyncWindow` created at Unix second 1700000000, which `StartTime()` reads as
1.7 s after the epoch. The calls `AllowN(time.Unix(2, 999999999), 1)` do not rotate
(`timeSpan = 0`), `elapsed` is 1.3 s, so the weight is about -0.3; after the first admission
the term `floor(weight * prevWindow.count)` is -1, and fifteen calls are admitted under
threshold 10. -/
theorem weight_negative_first_window :
    (exampleLimiter 10).timeSpan (exampleHeap freshWindow) 2999999999 = some 0 ∧
    (exampleLimiter 10).results (exampleHeap freshWindow) [earlyCall] = some [true] ∧
    (exampleLimiter 10).timeSpan
      ((exampleLimiter 10).heapAfter (exampleHeap freshWindow) [earlyCall]) 2999999999 =
        some 0 ∧
    (exampleLimiter 10).elapsed
      ((exampleLimiter 10).heapAfter (exampleHeap freshWindow) [earlyCall]) 2999999999 =
        1299999999 ∧
    (exampleLimiter 10).weight
      ((exampleLimiter 10).heapAfter (exampleHeap freshWindow) [earlyCall]) 2999999999 =
        { mant := -5404319534830197, exp := -54 } ∧
    (exampleLimiter 10).weightedFloor
      ((exampleLimiter 10).heapAfter (exampleHeap freshWindow) [earlyCall]) 2999999999 = -1 ∧
    (exampleLimiter 10).results (exampleHeap freshWindow) (List.replicate 16 earlyCall) =
      some [true, true, true, true, true, true, true, true, true, true, true, true, true, true,
        true, false] := by
  refine ⟨by decide, by decide, by decide, by decide, by decide, by decide, by decide⟩

theorem rotate_counts (lim : Limiter) (h h1 : Heap) (now : Int)
    (hrot : lim.rotate h now = .ok h1)
    (hc : 0 ≤ (h lim.currWindow).Count) (hp : 0 ≤ (h lim.prevWindow).Count) :
    0 ≤ (h1 lim.currWindow).Count ∧ (h1 lim.currWindow).Count ≤ (h lim.currWindow).Count ∧
    0 ≤ (h1 lim.prevWindow).Count := by
  unfold Limiter.rotate at hrot
  cases hk : lim.timeSpan h now with
  | none => simp [hk] at hrot
  | some k =>
    simp only [hk] at hrot
    split at hrot
    · injection hrot with hrot
      subst hrot
      rw [Heap.set_same]
      refine ⟨le_refl _, hc, ?_⟩
      by_cases hpc : lim.prevWindow = lim.currWindow
      · rw [hpc, Heap.set_same]
        exact le_refl _
      · rw [Heap.set_other _ _ _ _ hpc, Heap.set_same]
        show 0 ≤ (if k = 1 then (h lim.currWindow).Count else 0)
        split
        · exact hc
        · exact le_refl _
    · injection hrot with hrot
      subst hrot
      exact ⟨hc, le_refl _, hp⟩

theorem Sync_handled (f : FastSynchronizer) (now : Int) (req : SyncRequest) (env : SyncEnv)
    (resp : SyncResponse) (h : (f.Sync now req env).handled = some resp) :
    env.response = some resp := by
  rw [Sync_eq_steps] at h
  dsimp only at h
  unfold syncHelper.harvest at h
  split at h
  · cases he : env.response with
    | none =>
      rw [he] at h
      exact Option.noConfusion h
    | some r =>
      rw [he] at h
      exact h
  · exact Option.noConfusion h

/-- A `Sync` call leaves the count as it is or adds the `CounterpartDelta` of the response that
was ready. -/
theorem Sync_count (s w : SyncWindow) (now : Int) (env : SyncEnv)
    (hw : s.Sync now env = some w) :
    w.count = s.count ∨ w.count = wrap64 (s.count + env.counterpartDelta) := by
  unfold SyncWindow.Sync at hw
  cases hf : s.sync with
  | none => simp [hf] at hw
  | some f =>
    simp only [hf] at hw
    injection hw with hw
    subst hw
    cases hh : (f.Sync now s.getSyncRequest env).handled with
    | none => exact Or.inl rfl
    | some resp =>
      have he := Sync_handled f now s.getSyncRequest env resp hh
      dsimp only
      unfold SyncWindow.handleSyncResponse
      split
      · right
        unfold SyncEnv.counterpartDelta
        rw [he]
      · exact Or.inl rfl

/-- One call keeps the counts of both windows non-negative. -/
theorem AllowN_count_nonneg (lim : Limiter) (h : Heap) (now n : Int) (env : SyncEnv)
    (o : Outcome)
    (hc : 0 ≤ (h lim.currWindow).Count) (hp : 0 ≤ (h lim.prevWindow).Count)
    (hn : 0 ≤ n) (hd : 0 ≤ env.counterpartDelta)
    (hov : (h lim.currWindow).Count + n + env.counterpartDelta ≤ maxInt64)
    (hok : lim.AllowN h now n env = .ok o) :
    0 ≤ (o.heap lim.currWindow).Count ∧ 0 ≤ (o.heap lim.prevWindow).Count := by
  rcases AllowN_cases lim h now n env o hok with ⟨_, _, hh⟩ | ⟨_, h1, w, hrot, hw, _, hh⟩
  · rw [hh]
    exact ⟨hc, hp⟩
  · obtain ⟨hc1, hle, hp1⟩ := rotate_counts lim h h1 now hrot hc hp
    unfold SyncWindow.Count maxInt64 at *
    have hdc : 0 ≤ ((lim.decided h1 now n env.clock) lim.currWindow).count ∧
        ((lim.decided h1 now n env.clock) lim.currWindow).count ≤
          (h lim.currWindow).count + n := by
      unfold Limiter.decided
      split
      · rw [Heap.set_same]
        show 0 ≤ wrap64 _ ∧ wrap64 _ ≤ _
        rw [wrap64_of_inInt64 _ (by unfold inInt64 minInt64 maxInt64; constructor <;> omega)]
        constructor <;> omega
      · constructor <;> omega
    have hwc : 0 ≤ w.count := by
      rcases Sync_count _ w now env hw with e | e
      · rw [e]
        exact hdc.1
      · rw [e, wrap64_of_inInt64 _
          (by unfold inInt64 minInt64 maxInt64; constructor <;> omega)]
        omega
    rw [hh, Heap.set_same]
    refine ⟨hwc, ?_⟩
    by_cases hpc : lim.prevWindow = lim.currWindow
    · rw [hpc, Heap.set_same]
      exact hwc
    · rw [Heap.set_other _ _ _ _ hpc]
      unfold Limiter.decided
      split
      · rw [Heap.set_other _ _ _ _ hpc]
        exact hp1
      · exact hp1

theorem run_count_nonneg (lim : Limiter) (cs : List Call) :
    ∀ h : Heap, 0 ≤ (h lim.currWindow).Count → 0 ≤ (h lim.prevWindow).Count →
      lim.benign h cs = true →
      ∃ rs h2, lim.run h cs = .ok (rs, h2) ∧
        0 ≤ (h2 lim.currWindow).Count ∧ 0 ≤ (h2 lim.prevWindow).Count := by
  induction cs with
  | nil =>
    intro h hc hp _
    exact ⟨[], h, rfl, hc, hp⟩
  | cons c cs ih =>
    intro h hc hp hb
    unfold Limiter.benign at hb
    simp only [Bool.and_eq_true, decide_eq_true_eq] at hb
    obtain ⟨⟨⟨hn, hd⟩, hov⟩, hrest⟩ := hb
    cases hok : lim.AllowN h c.now c.n c.env with
    | error e => simp [hok] at hrest
    | ok o =>
      simp only [hok] at hrest
      obtain ⟨hc1, hp1⟩ := AllowN_count_nonneg lim h c.now c.n c.env o hc hp hn hd hov hok
      obtain ⟨rs, h2, hrun, hc2, hp2⟩ := ih o.heap hc1 hp1 hrest
      refine ⟨o.allowed :: rs, h2, ?_, hc2, hp2⟩
      unfold Limiter.run
      simp only [hok, hrun]

/-- Counterexample of C18: on a new window, `AllowN(now, -5)` returns `true` and leaves the
count at -5. -/
theorem count_nonneg_counterexample :
    (freshWindow).Count = 0 ∧
    (exampleLimiter 10).results (exampleHeap freshWindow)
      [{ now := bucket, n := -5, env := exampleEnv bucket }] = some [true] ∧
    (((exampleLimiter 10).heapAfter (exampleHeap freshWindow)
      [{ now := bucket, n := -5, env := exampleEnv bucket }])
        (exampleLimiter 10).currWindow).Count = -5 := by
  refine ⟨by decide, by decide, by decide⟩

/-- C18, amended: a new window counts 0, and from every state with non-negative window counts,
every sequence of returning `AllowN` calls with `n ≥ 0`, with rotations and with applied
responses whose `CounterpartDelta` is not negative, in which the sum of the current count,
`n` and that delta stays within `int64`, ends in a state with non-negative window counts. -/
theorem count_nonneg_invariant (lim : Limiter) (h : Heap) (cs : List Call)
    (hc : 0 ≤ (h lim.currWindow).Count) (hp : 0 ≤ (h lim.prevWindow).Count)
    (hb : lim.benign h cs = true) :
    (∀ (key : String) (sec : Int), (NewSyncWindow key sec).Count = 0) ∧
    ∃ rs h2, lim.run h cs = .ok (rs, h2) ∧
      0 ≤ (h2 lim.currWindow).Count ∧ 0 ≤ (h2 lim.prevWindow).Count :=
  ⟨fun _ _ => rfl, run_count_nonneg lim cs h hc hp hb⟩

/-- Witness of C18, amended: eleven single-unit calls on a new window, the first of which
rotates. -/
theorem count_nonneg_invariant_witness :
    (∀ (key : String) (sec : Int), (NewSyncWindow key sec).Count = 0) ∧
    ∃ rs h2, (exampleLimiter 10).run (exampleHeap freshWindow) (elevenCalls bucket) =
        .ok (rs, h2) ∧
      0 ≤ (h2 (exampleLimiter 10).currWindow).Count ∧
      0 ≤ (h2 (exampleLimiter 10).prevWindow).Count :=
  count_nonneg_invariant (exampleLimiter 10) (exampleHeap freshWindow) (elevenCalls bucket)
    (by decide) (by decide) (by decide)

end RateLimit
